import Mathlib

/-!
Verification development for the NavCloud e-learning backend core.

The TypeScript source is shallowly embedded:
* a JS `Map<string, V>` becomes an insertion-ordered association list
  `List (String × V)` with `alGet` / `alSet` / `alHas` mirroring
  `get` / `set` / `has` (`set` updates in place, otherwise appends, exactly
  like `Map.prototype.set`);
* ISO-8601 timestamp strings produced by the injected `now` clock are
  represented by their epoch-millisecond value (`Nat`), and the clock value is
  passed explicitly to every operation that reads it;
* methods that `throw` an `LmsModelError` return
  `Except LmsModelError α × LmsCoreStore`: the returned store is the
  post-call state, so atomicity-on-error is a provable statement, not a
  modelling artifact.
-/

namespace NavCloud

/-- `alGet m k` models `Map.prototype.get`: the value stored at the first
(and, when keys are unique, only) entry whose key is `k`. -/
def alGet {α : Type} : List (String × α) → String → Option α
  | [], _ => none
  | (k', v) :: rest, k => if k' = k then some v else alGet rest k

/-- `alSet m k v` models `Map.prototype.set`: replace the value in place when
the key is present, otherwise append a new entry. -/
def alSet {α : Type} : List (String × α) → String → α → List (String × α)
  | [], k, v => [(k, v)]
  | (k', v') :: rest, k, v =>
    if k' = k then (k, v) :: rest else (k', v') :: alSet rest k v

/-- `alHas m k` models `Map.prototype.has`. -/
def alHas {α : Type} (m : List (String × α)) (k : String) : Bool :=
  (alGet m k).isSome

/-- Apply a list of writes left to right, like a sequence of `Map.set` calls. -/
def alSetAll {α : Type} (m : List (String × α)) : List (String × α) → List (String × α)
  | [] => m
  | (k, v) :: ws => alSetAll (alSet m k v) ws

/-- `pushIndex(index, key, value)` from the source. -/
def pushIndex (index : List (String × List String)) (key value : String) :
    List (String × List String) :=
  alSet index key (((alGet index key).getD []) ++ [value])

/-! ## Domain entities (src lms/models: `Course`, `Module`, `Lesson`, …) -/

inductive StorageProviderName
  | gdrive
  | s3
  | r2
deriving DecidableEq, Repr

structure Course where
  id : String
  title : String
  createdBy : String
  createdAt : Nat
deriving DecidableEq, Repr

structure Module where
  id : String
  courseId : String
  title : String
  position : Int
deriving DecidableEq, Repr

structure Lesson where
  id : String
  moduleId : String
  title : String
  position : Int
deriving DecidableEq, Repr

structure Enrollment where
  id : String
  courseId : String
  userId : String
  enrolledAt : Nat
deriving DecidableEq, Repr

structure LessonContentMetadata where
  lessonId : String
  provider : StorageProviderName
  key : String
  fileId : String
  contentType : String
  size : Nat
  updatedAt : Nat
deriving DecidableEq, Repr

inductive ProgressStatus
  | not_started
  | in_progress
  | completed
deriving DecidableEq, Repr

structure Progress where
  id : String
  enrollmentId : String
  lessonId : String
  status : ProgressStatus
  completedAt : Option Nat
deriving DecidableEq, Repr

inductive LmsErrorCode
  | NOT_FOUND
  | INVALID_RELATION
  | DUPLICATE
  | ACCESS_DENIED
deriving DecidableEq, Repr

structure LmsModelError where
  code : LmsErrorCode
  message : String
deriving DecidableEq, Repr

/-- The in-memory domain store: entity maps plus secondary indices, exactly
the private fields of `LmsCoreStore`. -/
structure LmsCoreStore where
  courses : List (String × Course)
  modules : List (String × Module)
  lessons : List (String × Lesson)
  enrollments : List (String × Enrollment)
  progress : List (String × Progress)
  lessonContent : List (String × LessonContentMetadata)
  moduleIdsByCourse : List (String × List String)
  lessonIdsByModule : List (String × List String)
  enrollmentIdsByCourse : List (String × List String)
  progressIdsByEnrollment : List (String × List String)
  enrollmentByCourseUser : List (String × String)
deriving DecidableEq, Repr

def LmsCoreStore.empty : LmsCoreStore :=
  ⟨[], [], [], [], [], [], [], [], [], [], []⟩

namespace LmsCoreStore

structure CreateCourseInput where
  id : String
  title : String
  createdBy : String

def createCourse (st : LmsCoreStore) (now : Nat) (input : CreateCourseInput) :
    Except LmsModelError Course × LmsCoreStore :=
  if alHas st.courses input.id then
    (.error ⟨.DUPLICATE, "course already exists: " ++ input.id⟩, st)
  else
    let course : Course := ⟨input.id, input.title, input.createdBy, now⟩
    (.ok course,
      { st with
        courses := alSet st.courses course.id course
        moduleIdsByCourse := alSet st.moduleIdsByCourse course.id []
        enrollmentIdsByCourse := alSet st.enrollmentIdsByCourse course.id [] })

def getCourse (st : LmsCoreStore) (courseId : String) :
    Except LmsModelError Course :=
  match alGet st.courses courseId with
  | none => .error ⟨.NOT_FOUND, "course does not exist: " ++ courseId⟩
  | some course => .ok course

structure CreateModuleInput where
  id : String
  courseId : String
  title : String
  position : Int

def createModule (st : LmsCoreStore) (input : CreateModuleInput) :
    Except LmsModelError Module × LmsCoreStore :=
  match alGet st.courses input.courseId with
  | none =>
    (.error ⟨.INVALID_RELATION, "course does not exist: " ++ input.courseId⟩, st)
  | some course =>
    if alHas st.modules input.id then
      (.error ⟨.DUPLICATE, "module already exists: " ++ input.id⟩, st)
    else
      if ((alGet st.moduleIdsByCourse course.id).getD []).any (fun moduleId =>
          match alGet st.modules moduleId with
          | some row => row.position == input.position
          | none => false) then
        (.error ⟨.DUPLICATE, "module position already used in course: " ++ input.courseId⟩, st)
      else
        let moduleRow : Module := ⟨input.id, input.courseId, input.title, input.position⟩
        (.ok moduleRow,
          { st with
            modules := alSet st.modules moduleRow.id moduleRow
            moduleIdsByCourse := pushIndex st.moduleIdsByCourse input.courseId moduleRow.id
            lessonIdsByModule := alSet st.lessonIdsByModule moduleRow.id [] })

structure CreateLessonInput where
  id : String
  moduleId : String
  title : String
  position : Int

/-- The fan-out loop of `createLesson`: one `not_started` Progress row per
enrollment id listed in `enrollmentIdsByCourse` for the lesson's course. -/
def fanOutLesson (lessonId : String) (enrollmentIds : List String)
    (progress : List (String × Progress))
    (progressIdsByEnrollment : List (String × List String)) :
    List (String × Progress) × List (String × List String) :=
  match enrollmentIds with
  | [] => (progress, progressIdsByEnrollment)
  | enrollmentId :: rest =>
    let progressId := enrollmentId ++ ":" ++ lessonId
    fanOutLesson lessonId rest
      (alSet progress progressId
        ⟨progressId, enrollmentId, lessonId, .not_started, none⟩)
      (pushIndex progressIdsByEnrollment enrollmentId progressId)

def createLesson (st : LmsCoreStore) (input : CreateLessonInput) :
    Except LmsModelError Lesson × LmsCoreStore :=
  match alGet st.modules input.moduleId with
  | none =>
    (.error ⟨.INVALID_RELATION, "module does not exist: " ++ input.moduleId⟩, st)
  | some moduleRow =>
    if alHas st.lessons input.id then
      (.error ⟨.DUPLICATE, "lesson already exists: " ++ input.id⟩, st)
    else
      if ((alGet st.lessonIdsByModule input.moduleId).getD []).any (fun lessonId =>
          match alGet st.lessons lessonId with
          | some row => row.position == input.position
          | none => false) then
        (.error ⟨.DUPLICATE, "lesson position already used in module: " ++ input.moduleId⟩, st)
      else
        let lesson : Lesson := ⟨input.id, input.moduleId, input.title, input.position⟩
        let lessons' := alSet st.lessons lesson.id lesson
        let lessonIdsByModule' := pushIndex st.lessonIdsByModule input.moduleId lesson.id
        let enrollmentIds := (alGet st.enrollmentIdsByCourse moduleRow.courseId).getD []
        let fanned := fanOutLesson lesson.id enrollmentIds st.progress st.progressIdsByEnrollment
        (.ok lesson,
          { st with
            lessons := lessons'
            lessonIdsByModule := lessonIdsByModule'
            progress := fanned.1
            progressIdsByEnrollment := fanned.2 })

/-- `getLessonsForCourse` (private helper in the source). -/
def getLessonsForCourse (st : LmsCoreStore) (courseId : String) : List Lesson :=
  let moduleIds := (alGet st.moduleIdsByCourse courseId).getD []
  let lessonIds := moduleIds.flatMap (fun moduleId => (alGet st.lessonIdsByModule moduleId).getD [])
  lessonIds.filterMap (fun lessonId => alGet st.lessons lessonId)

structure EnrollStudentInput where
  id : String
  courseId : String
  userId : String

/-- The fan-out loop of `enrollStudent`: one `not_started` Progress row per
lesson of the course. -/
def fanOutEnrollment (enrollmentId : String) (lessonsInCourse : List Lesson)
    (progress : List (String × Progress))
    (progressIdsByEnrollment : List (String × List String)) :
    List (String × Progress) × List (String × List String) :=
  match lessonsInCourse with
  | [] => (progress, progressIdsByEnrollment)
  | lesson :: rest =>
    let progressId := enrollmentId ++ ":" ++ lesson.id
    fanOutEnrollment enrollmentId rest
      (alSet progress progressId
        ⟨progressId, enrollmentId, lesson.id, .not_started, none⟩)
      (pushIndex progressIdsByEnrollment enrollmentId progressId)

def enrollStudent (st : LmsCoreStore) (now : Nat) (input : EnrollStudentInput) :
    Except LmsModelError Enrollment × LmsCoreStore :=
  if !(alHas st.courses input.courseId) then
    (.error ⟨.INVALID_RELATION, "course does not exist: " ++ input.courseId⟩, st)
  else if alHas st.enrollments input.id then
    (.error ⟨.DUPLICATE, "enrollment already exists: " ++ input.id⟩, st)
  else
    if alHas st.enrollmentByCourseUser (input.courseId ++ ":" ++ input.userId) then
      (.error ⟨.DUPLICATE, "student already enrolled in course: " ++ input.courseId⟩, st)
    else
      let enrollment : Enrollment := ⟨input.id, input.courseId, input.userId, now⟩
      let st1 :=
        { st with
          enrollments := alSet st.enrollments enrollment.id enrollment
          enrollmentByCourseUser :=
            alSet st.enrollmentByCourseUser (input.courseId ++ ":" ++ input.userId) enrollment.id
          enrollmentIdsByCourse := pushIndex st.enrollmentIdsByCourse input.courseId enrollment.id
          progressIdsByEnrollment := alSet st.progressIdsByEnrollment enrollment.id [] }
      let lessonsInCourse := getLessonsForCourse st1 input.courseId
      let fanned := fanOutEnrollment enrollment.id lessonsInCourse st1.progress st1.progressIdsByEnrollment
      (.ok enrollment,
        { st1 with
          progress := fanned.1
          progressIdsByEnrollment := fanned.2 })

structure AttachLessonContentInput where
  lessonId : String
  provider : StorageProviderName
  key : String
  fileId : String
  contentType : String
  size : Nat

def attachLessonContent (st : LmsCoreStore) (now : Nat)
    (input : AttachLessonContentInput) :
    Except LmsModelError LessonContentMetadata × LmsCoreStore :=
  if !(alHas st.lessons input.lessonId) then
    (.error ⟨.NOT_FOUND, "lesson does not exist: " ++ input.lessonId⟩, st)
  else
    let metadata : LessonContentMetadata :=
      ⟨input.lessonId, input.provider, input.key, input.fileId, input.contentType, input.size, now⟩
    (.ok metadata, { st with lessonContent := alSet st.lessonContent input.lessonId metadata })

def getLessonContent (st : LmsCoreStore) (lessonId : String) :
    Except LmsModelError LessonContentMetadata :=
  match alGet st.lessonContent lessonId with
  | none => .error ⟨.NOT_FOUND, "lesson content does not exist: " ++ lessonId⟩
  | some metadata => .ok metadata

def getEnrollment (st : LmsCoreStore) (enrollmentId : String) :
    Except LmsModelError Enrollment :=
  match alGet st.enrollments enrollmentId with
  | none => .error ⟨.NOT_FOUND, "enrollment does not exist: " ++ enrollmentId⟩
  | some enrollment => .ok enrollment

def getCourseIdForModule (st : LmsCoreStore) (moduleId : String) :
    Except LmsModelError String :=
  match alGet st.modules moduleId with
  | none => .error ⟨.NOT_FOUND, "module does not exist: " ++ moduleId⟩
  | some moduleRow => .ok moduleRow.courseId

def getCourseIdForLesson (st : LmsCoreStore) (lessonId : String) :
    Except LmsModelError String :=
  match alGet st.lessons lessonId with
  | none => .error ⟨.NOT_FOUND, "lesson does not exist: " ++ lessonId⟩
  | some lesson =>
    match alGet st.modules lesson.moduleId with
    | none => .error ⟨.INVALID_RELATION, "module does not exist for lesson: " ++ lessonId⟩
    | some moduleRow => .ok moduleRow.courseId

structure MarkLessonProgressInput where
  enrollmentId : String
  lessonId : String
  actorUserId : String
  status : ProgressStatus

def markLessonProgress (st : LmsCoreStore) (now : Nat)
    (input : MarkLessonProgressInput) :
    Except LmsModelError Progress × LmsCoreStore :=
  match alGet st.enrollments input.enrollmentId with
  | none =>
    (.error ⟨.NOT_FOUND, "enrollment does not exist: " ++ input.enrollmentId⟩, st)
  | some enrollment =>
    if enrollment.userId ≠ input.actorUserId then
      (.error ⟨.ACCESS_DENIED, "students can only update their own progress"⟩, st)
    else
      match alGet st.lessons input.lessonId with
      | none =>
        (.error ⟨.NOT_FOUND, "lesson does not exist: " ++ input.lessonId⟩, st)
      | some lesson =>
        match alGet st.modules lesson.moduleId with
        | none => (.error ⟨.INVALID_RELATION, "lesson is outside enrolled course"⟩, st)
        | some moduleRow =>
          if moduleRow.courseId ≠ enrollment.courseId then
            (.error ⟨.INVALID_RELATION, "lesson is outside enrolled course"⟩, st)
          else
            match alGet st.progress (enrollment.id ++ ":" ++ lesson.id) with
            | none =>
              (.error ⟨.INVALID_RELATION, "missing progress row for enrollment/lesson"⟩, st)
            | some row =>
              let row' : Progress :=
                { row with
                  status := input.status
                  completedAt := if input.status = .completed then some now else none }
              (.ok row',
                { st with progress := alSet st.progress (enrollment.id ++ ":" ++ lesson.id) row' })

/-- `Math.round` on a non-negative rational: JavaScript rounds half away from
zero, which on the non-negative values produced here is `⌊x + 1/2⌋`. -/
def jsMathRound (x : ℚ) : ℤ := ⌊x + 1 / 2⌋

def getCourseCompletionPercent (st : LmsCoreStore) (enrollmentId : String) :
    Except LmsModelError ℤ :=
  match alGet st.enrollments enrollmentId with
  | none => .error ⟨.NOT_FOUND, "enrollment does not exist: " ++ enrollmentId⟩
  | some _ =>
    let progressIds := (alGet st.progressIdsByEnrollment enrollmentId).getD []
    if progressIds.length = 0 then .ok 0
    else
      let completed := (progressIds.filter (fun progressId =>
        match alGet st.progress progressId with
        | some row => row.status == .completed
        | none => false)).length
      .ok (jsMathRound (((completed : ℚ) / (progressIds.length : ℚ)) * 100))

end LmsCoreStore

/-! ## A single step type covering every mutating Domain Store operation -/

inductive StoreOp
  | createCourseOp (now : Nat) (input : LmsCoreStore.CreateCourseInput)
  | createModuleOp (input : LmsCoreStore.CreateModuleInput)
  | createLessonOp (input : LmsCoreStore.CreateLessonInput)
  | enrollStudentOp (now : Nat) (input : LmsCoreStore.EnrollStudentInput)
  | attachLessonContentOp (now : Nat) (input : LmsCoreStore.AttachLessonContentInput)
  | markLessonProgressOp (now : Nat) (input : LmsCoreStore.MarkLessonProgressInput)

/-- Run one mutating operation, keeping only the error/success outcome and the
post-state. -/
def applyStoreOp (st : LmsCoreStore) : StoreOp → Except LmsModelError Unit × LmsCoreStore
  | .createCourseOp now input =>
    let r := st.createCourse now input
    (r.1.map fun _ => (), r.2)
  | .createModuleOp input =>
    let r := st.createModule input
    (r.1.map fun _ => (), r.2)
  | .createLessonOp input =>
    let r := st.createLesson input
    (r.1.map fun _ => (), r.2)
  | .enrollStudentOp now input =>
    let r := st.enrollStudent now input
    (r.1.map fun _ => (), r.2)
  | .attachLessonContentOp now input =>
    let r := st.attachLessonContent now input
    (r.1.map fun _ => (), r.2)
  | .markLessonProgressOp now input =>
    let r := st.markLessonProgress now input
    (r.1.map fun _ => (), r.2)

namespace LmsCoreStore

/-- N of claim C3: the number of Progress rows indexed for an enrollment. -/
def indexedProgressCount (st : LmsCoreStore) (enrollmentId : String) : Nat :=
  ((alGet st.progressIdsByEnrollment enrollmentId).getD []).length

/-- K of claim C3: how many of the indexed Progress rows are completed. -/
def completedProgressCount (st : LmsCoreStore) (enrollmentId : String) : Nat :=
  (((alGet st.progressIdsByEnrollment enrollmentId).getD []).filter (fun progressId =>
    match alGet st.progress progressId with
    | some row => row.status == .completed
    | none => false)).length

end LmsCoreStore

open LmsCoreStore

def c3Store : LmsCoreStore :=
  { LmsCoreStore.empty with
    enrollments := [("e1", ⟨"e1", "c1", "u1", 0⟩)]
    progressIdsByEnrollment := [("e1", ["e1:l1", "e1:l2", "e1:l3"])]
    progress :=
      [("e1:l1", ⟨"e1:l1", "e1", "l1", .completed, some 5⟩),
       ("e1:l2", ⟨"e1:l2", "e1", "l2", .not_started, none⟩),
       ("e1:l3", ⟨"e1:l3", "e1", "l3", .in_progress, none⟩)] }

/-! ### Characterizing the fan-out loops as write sequences -/

/-- The writes performed by `createLesson`'s fan-out loop. -/
def lessonFanWrites (lessonId : String) (enrollmentIds : List String) :
    List (String × Progress) :=
  enrollmentIds.map (fun enrollmentId =>
    (enrollmentId ++ ":" ++ lessonId,
     ⟨enrollmentId ++ ":" ++ lessonId, enrollmentId, lessonId, .not_started, none⟩))

/-- The writes performed by `enrollStudent`'s fan-out loop. -/
def enrollmentFanWrites (enrollmentId : String) (lessonsInCourse : List Lesson) :
    List (String × Progress) :=
  lessonsInCourse.map (fun lesson =>
    (enrollmentId ++ ":" ++ lesson.id,
     ⟨enrollmentId ++ ":" ++ lesson.id, enrollmentId, lesson.id, .not_started, none⟩))

/-! ### Store well-formedness

`WF` collects the structural invariants every store reachable through the
public API satisfies: map keys agree with record ids, foreign keys reference
existing rows, the secondary indices are complete, and the Progress fan-out
invariant of claim C2 holds. -/

structure WF (st : LmsCoreStore) : Prop where
  coursesKeys : ∀ p ∈ st.courses, (p : String × Course).2.id = p.1
  modulesKeys : ∀ p ∈ st.modules, (p : String × Module).2.id = p.1
  lessonsKeys : ∀ p ∈ st.lessons, (p : String × Lesson).2.id = p.1
  enrollmentsKeys : ∀ p ∈ st.enrollments, (p : String × Enrollment).2.id = p.1
  moduleCourseRef : ∀ p ∈ st.modules,
    alHas st.courses (p : String × Module).2.courseId = true
  lessonModuleRef : ∀ p ∈ st.lessons,
    alHas st.modules (p : String × Lesson).2.moduleId = true
  enrollmentCourseRef : ∀ p ∈ st.enrollments,
    alHas st.courses (p : String × Enrollment).2.courseId = true
  moduleIndexed : ∀ p ∈ st.modules,
    (p : String × Module).2.id ∈ (alGet st.moduleIdsByCourse p.2.courseId).getD []
  lessonIndexed : ∀ p ∈ st.lessons,
    (p : String × Lesson).2.id ∈ (alGet st.lessonIdsByModule p.2.moduleId).getD []
  enrollmentIndexed : ∀ p ∈ st.enrollments,
    (p : String × Enrollment).2.id ∈ (alGet st.enrollmentIdsByCourse p.2.courseId).getD []
  pairs : ∀ pe ∈ st.enrollments, ∀ pl ∈ st.lessons, ∀ M : Module,
    alGet st.modules (pl : String × Lesson).2.moduleId = some M →
    M.courseId = (pe : String × Enrollment).2.courseId →
    alHas st.progress (pe.2.id ++ ":" ++ pl.2.id) = true

/-- The row written by `markLessonProgress` (source lines `row.status = …;
row.completedAt = …`). -/
def updatedRow (row : Progress) (status : ProgressStatus) (now : Nat) : Progress :=
  { row with
    status := status
    completedAt := if status = .completed then some now else none }

/-- Run a sequence of mutating store operations from a starting store. -/
def runOps (st : LmsCoreStore) : List StoreOp → LmsCoreStore
  | [] => st
  | op :: rest => runOps (applyStoreOp st op).2 rest

/-- A small concrete history: course, module, lesson, then an enrollment. -/
def demoOps : List StoreOp :=
  [.createCourseOp 0 ⟨"c1", "Course 1", "inst1"⟩,
   .createModuleOp ⟨"m1", "c1", "Module 1", 1⟩,
   .createLessonOp ⟨"l1", "m1", "Lesson 1", 1⟩,
   .enrollStudentOp 3 ⟨"e1", "c1", "u1"⟩]

def demoStore : LmsCoreStore := runOps LmsCoreStore.empty demoOps

/-- Claim C8's state invariant: a Progress row has `completedAt` set iff its
status is `completed`. -/
def ProgressInv (st : LmsCoreStore) : Prop :=
  ∀ p ∈ st.progress,
    ((p : String × Progress).2.completedAt ≠ none ↔ p.2.status = .completed)

instance (st : LmsCoreStore) : Decidable (ProgressInv st) :=
  inferInstanceAs (Decidable (∀ p ∈ st.progress,
    ((p : String × Progress).2.completedAt ≠ none ↔ p.2.status = .completed)))

/-! ## Capability URL signer (src lms/contentDelivery) -/

def providerString : StorageProviderName → String
  | .gdrive => "gdrive"
  | .s3 => "s3"
  | .r2 => "r2"

def decDigitChar (d : Nat) : Char := Char.ofNat (48 + d)

def decDigitVal (c : Char) : Nat := c.toNat - 48

/-- Decimal printing of a natural number: the model of `String(expiresAtEpoch)`
in the signer. -/
def natToDec (n : Nat) : String :=
  if n = 0 then "0" else ⟨((Nat.digits 10 n).map decDigitChar).reverse⟩

/-- Model of the `Number(params.exp)` / `Number.isFinite` gate in the
verifier: accepts canonical non-negative decimal integer strings — the only
form the signer ever emits — and rejects everything else as non-numeric. -/
def decToNat (s : String) : Option Nat :=
  if s.data ≠ [] ∧ s.data.all Char.isDigit then
    some (Nat.ofDigits 10 ((s.data.map decDigitVal).reverse))
  else none

structure LessonContentRef where
  provider : StorageProviderName
  key : String
  fileId : String
  contentType : String
  size : Nat
deriving DecidableEq, Repr

structure SignedUrlInput where
  userId : String
  lessonId : String
  content : LessonContentRef
  expiresInSeconds : Nat
deriving DecidableEq, Repr

/-- The query parameters carried by a signed lesson-content URL (the verify
endpoint receives exactly these fields back). -/
structure SignedUrlParams where
  provider : StorageProviderName
  key : String
  lessonId : String
  userId : String
  exp : String
  sig : String
deriving DecidableEq, Repr

/-- `provider:key:lessonId:userId:expiry`, the canonical payload. -/
def canonicalPayload (provider key lessonId userId exp : String) : String :=
  provider ++ ":" ++ key ++ ":" ++ lessonId ++ ":" ++ userId ++ ":" ++ exp

/-- `buildSignedLessonContentUrl`, modelled up to URL assembly: the HMAC
primitive is passed in as a function `hmac secret payload`, and the result is
the set of parameters embedded in the URL plus the expiry epoch. -/
def buildSignedLessonContentUrl (hmac : String → String → String)
    (signingSecret : String) (nowMs : Nat) (input : SignedUrlInput) :
    SignedUrlParams × Nat :=
  let expiresAtEpoch := nowMs / 1000 + input.expiresInSeconds
  let exp := natToDec expiresAtEpoch
  let payload := canonicalPayload (providerString input.content.provider)
    input.content.key input.lessonId input.userId exp
  let sig := hmac signingSecret payload
  (⟨input.content.provider, input.content.key, input.lessonId, input.userId,
    exp, sig⟩, expiresAtEpoch)

/-- `verifySignedLessonContentUrl`. The `crypto.timingSafeEqual` call inside
`try`/`catch` (which throws on length mismatch, caught to `false`) is modelled
by the explicit length guard followed by equality. -/
def verifySignedLessonContentUrl (hmac : String → String → String)
    (signingSecret : String) (nowMs : Nat) (params : SignedUrlParams) : Bool :=
  match decToNat params.exp with
  | none => false
  | some expNum =>
    if expNum ≤ nowMs / 1000 then false
    else
      let expected := hmac signingSecret
        (canonicalPayload (providerString params.provider) params.key
          params.lessonId params.userId params.exp)
      if expected.length ≠ params.sig.length then false
      else expected == params.sig

def hmacDemo : String → String → String := fun s p => s ++ "|" ++ p

/-! ## OAuth state tracker (the state handling of GET /auth/google/start and
GET /auth/google/callback) -/

/-- `Map.prototype.delete`: remove the entry at the key, if present. -/
def alDelete {α : Type} : List (String × α) → String → List (String × α)
  | [], _ => []
  | (k', v) :: rest, k => if k' = k then rest else (k', v) :: alDelete rest k

inductive StateCheck
  | invalidState
  | expiredState
  | okState
deriving DecidableEq, Repr

/-- `GET /auth/google/start` records `oauthStates.set(state, now)`. -/
def startOAuth (states : List (String × Nat)) (state : String) (nowMs : Nat) :
    List (String × Nat) :=
  alSet states state nowMs

/-- The state-validation prefix of `GET /auth/google/callback`: look the state
up (absent → `invalid_state`), delete it, then reject with `expired_state`
when `now - issuedAt > 10 minutes`. The deletion happens before the expiry
check and before the provider exchange; the exchange never touches the state
store, so the second component is the callback's entire effect on it. -/
def consumeOAuthState (states : List (String × Nat)) (state : String)
    (nowMs : Nat) : StateCheck × List (String × Nat) :=
  match alGet states state with
  | none => (.invalidState, states)
  | some issuedAt =>
    let states' := alDelete states state
    if nowMs - issuedAt > 10 * 60 * 1000 then (.expiredState, states')
    else (.okState, states')

/-! ## Auth service server state (src index: users, sessions, subscriptions,
handlers). JWTs signed with the service's refresh secret are modelled by
their claim set; `sha256(token)` is modelled as the token itself (collision
freeness of SHA-256 idealized as injectivity, so equal hashes mean equal
tokens). -/

inductive Role
  | Admin
  | Instructor
  | Student
deriving DecidableEq, Repr

structure User where
  id : String
  email : String
  name : String
  role : Role
  createdAt : Nat
  updatedAt : Nat
  tokenVersion : Nat
deriving DecidableEq, Repr

inductive TokenType
  | access
  | refresh
deriving DecidableEq, Repr

/-- The claims of a refresh JWT: `{sub, sid, tokenVersion, type, exp}`. -/
structure RefreshClaims where
  sub : String
  sid : String
  tokenVersion : Nat
  typ : TokenType
  exp : Nat
deriving DecidableEq, Repr

structure RefreshSession where
  sessionId : String
  userId : String
  tokenHash : RefreshClaims
  expiresAt : Nat
  revokedAt : Option Nat
deriving DecidableEq, Repr

inductive SubscriptionPlan
  | free
  | pro
  | enterprise
deriving DecidableEq, Repr

structure SubscriptionRecord where
  userId : String
  plan : SubscriptionPlan
  updatedAt : Nat
deriving DecidableEq, Repr

structure PlanLimits where
  maxCreatedCourses : Nat
  maxActiveEnrollments : Nat
  maxOwnedStorageBytes : Nat
deriving DecidableEq, Repr

/-- `PLAN_LIMITS`; `Number.MAX_SAFE_INTEGER = 2^53 - 1`. -/
def PLAN_LIMITS : SubscriptionPlan → PlanLimits
  | .free => ⟨2, 5, 50 * 1024 * 1024⟩
  | .pro => ⟨20, 100, 5 * 1024 * 1024 * 1024⟩
  | .enterprise => ⟨9007199254740991, 9007199254740991, 9007199254740991⟩

structure EnvCfg where
  accessTokenTtlSeconds : Nat
  refreshTokenTtlSeconds : Nat
deriving DecidableEq, Repr

structure ServerState where
  usersById : List (String × User)
  subscriptionsByUserId : List (String × SubscriptionRecord)
  refreshSessions : List (String × RefreshSession)
  oauthStates : List (String × Nat)
  lms : LmsCoreStore
deriving DecidableEq, Repr

def getOrCreateSubscription (st : ServerState) (userId : String) (nowMs : Nat) :
    SubscriptionRecord × ServerState :=
  match alGet st.subscriptionsByUserId userId with
  | some existing => (existing, st)
  | none =>
    let created : SubscriptionRecord := ⟨userId, .free, nowMs⟩
    (created,
      { st with subscriptionsByUserId :=
          (alSet st.subscriptionsByUserId userId created) })

/-- `issueRefreshToken`: mint a refresh token bound to a new session id and
persist the session (`jsonwebtoken` sets `exp = floor(now/1000) + expiresIn`). -/
def issueRefreshToken (env : EnvCfg) (st : ServerState) (nowMs : Nat)
    (sessionId : String) (user : User) : RefreshClaims × ServerState :=
  let token : RefreshClaims :=
    ⟨user.id, sessionId, user.tokenVersion, .refresh,
      nowMs / 1000 + env.refreshTokenTtlSeconds⟩
  let session : RefreshSession :=
    ⟨sessionId, user.id, token, nowMs + env.refreshTokenTtlSeconds * 1000, none⟩
  (token, { st with refreshSessions := alSet st.refreshSessions sessionId session })

/-- The state effect of `toAuthResponse`: lazily create the subscription
record, then issue a fresh refresh session (the access token carries no
state). -/
def toAuthResponseState (env : EnvCfg) (st : ServerState) (nowMs : Nat)
    (sessionId : String) (user : User) : RefreshClaims × ServerState :=
  issueRefreshToken env (getOrCreateSubscription st user.id nowMs).2
    nowMs sessionId user

inductive AuthErr
  | invalidInput
  | invalidTokenType
  | refreshSessionInvalid
  | refreshSessionMismatch
  | staleRefreshToken
  | refreshTokenExpired
  | invalidRefreshToken
deriving DecidableEq, Repr

/-- `POST /auth/refresh`. `jwt.verify` fails with `TokenExpiredError` when
`floor(now/1000) ≥ exp` (mapped to `refresh_token_expired`); then the type
check, the session validity check, the replay/tamper hash check, the stale
user check; on success the old session is revoked and a fresh access+refresh
pair is issued under the fresh session id `newSessionId`. -/
def postAuthRefresh (env : EnvCfg) (st : ServerState) (nowMs : Nat)
    (newSessionId : String) (token : RefreshClaims) :
    Except AuthErr RefreshClaims × ServerState :=
  if token.exp ≤ nowMs / 1000 then (.error .refreshTokenExpired, st)
  else if token.typ ≠ .refresh then (.error .invalidTokenType, st)
  else
    match alGet st.refreshSessions token.sid with
    | none => (.error .refreshSessionInvalid, st)
    | some session =>
      if session.revokedAt.isSome then (.error .refreshSessionInvalid, st)
      else if session.expiresAt ≤ nowMs then (.error .refreshSessionInvalid, st)
      else if session.userId ≠ token.sub ∨ session.tokenHash ≠ token then
        (.error .refreshSessionMismatch, st)
      else
        match alGet st.usersById token.sub with
        | none => (.error .staleRefreshToken, st)
        | some user =>
          if user.tokenVersion ≠ token.tokenVersion then
            (.error .staleRefreshToken, st)
          else
            let st1 := { st with refreshSessions :=
              (alSet st.refreshSessions token.sid
                { session with revokedAt := some nowMs }) }
            let r := toAuthResponseState env st1 nowMs newSessionId user
            (.ok r.1, r.2)

/-- `POST /auth/logout`: verify (any failure → 401, expiry included under the
generic catch), then mark the session revoked if present and not yet revoked;
idempotent and always `{ok: true}` once the token verifies. -/
def postAuthLogout (st : ServerState) (nowMs : Nat) (token : RefreshClaims) :
    Except AuthErr Unit × ServerState :=
  if token.exp ≤ nowMs / 1000 then (.error .invalidRefreshToken, st)
  else if token.typ ≠ .refresh then (.error .invalidTokenType, st)
  else
    match alGet st.refreshSessions token.sid with
    | none => (.ok (), st)
    | some session =>
      if session.revokedAt.isSome then (.ok (), st)
      else (.ok (),
        { st with refreshSessions :=
            (alSet st.refreshSessions token.sid
              { session with revokedAt := some nowMs }) })

/-- The session-affecting API surface, as events: a login callback issuing a
session for a resolved user, a refresh, a logout. -/
inductive AuthEvent
  | loginEv (user : User) (nowMs : Nat) (sessionId : String)
  | refreshEv (token : RefreshClaims) (nowMs : Nat) (sessionId : String)
  | logoutEv (token : RefreshClaims) (nowMs : Nat)

def applyAuthEvent (env : EnvCfg) (st : ServerState) : AuthEvent → ServerState
  | .loginEv user nowMs sid => (toAuthResponseState env st nowMs sid user).2
  | .refreshEv token nowMs sid => (postAuthRefresh env st nowMs sid token).2
  | .logoutEv token nowMs => (postAuthLogout st nowMs token).2

/-- `deps.randomId()` freshness: a newly issued session id is not already a
key of the session store. -/
def freshFor (st : ServerState) : AuthEvent → Prop
  | .loginEv _ _ sid => alHas st.refreshSessions sid = false
  | .refreshEv _ _ sid => alHas st.refreshSessions sid = false
  | .logoutEv _ _ => True

def runAuthEvents (env : EnvCfg) (st : ServerState) : List AuthEvent → ServerState
  | [] => st
  | e :: es => runAuthEvents env (applyAuthEvent env st e) es

def FreshTrace (env : EnvCfg) (st : ServerState) : List AuthEvent → Prop
  | [] => True
  | e :: es => freshFor st e ∧ FreshTrace env (applyAuthEvent env st e) es

def sessionRevoked (st : ServerState) (sid : String) : Prop :=
  ∃ s, alGet st.refreshSessions sid = some s ∧ s.revokedAt ≠ none

/-! ## Subscription tracker and LMS handlers -/

structure UserUsageSnapshot where
  createdCourses : Nat
  activeEnrollments : Nat
  ownedStorageBytes : Nat
deriving DecidableEq, Repr

/-- `getUserUsageSnapshot`: count owned courses and own enrollments by a scan
of the entity maps, then walk the owned courses through the secondary indices
summing attached content sizes. -/
def LmsCoreStore.getUserUsageSnapshot (st : LmsCoreStore) (userId : String) :
    UserUsageSnapshot :=
  let ownedCourses := (st.courses.map Prod.snd).filter
    (fun c => c.createdBy == userId)
  let activeEnrollments := ((st.enrollments.map Prod.snd).filter
    (fun e => e.userId == userId)).length
  let ownedStorageBytes := (ownedCourses.map (fun c =>
    (((alGet st.moduleIdsByCourse c.id).getD []).map (fun moduleId =>
      (((alGet st.lessonIdsByModule moduleId).getD []).map (fun lessonId =>
        match alGet st.lessonContent lessonId with
        | some content => content.size
        | none => 0)).sum)).sum)).sum
  ⟨ownedCourses.length, activeEnrollments, ownedStorageBytes⟩

structure SoftLimit where
  createdCoursesExceededBy : Nat
  activeEnrollmentsExceededBy : Nat
  ownedStorageBytesExceededBy : Nat
deriving DecidableEq, Repr

structure SubscriptionStatus where
  plan : SubscriptionPlan
  limits : PlanLimits
  usage : UserUsageSnapshot
  softLimit : SoftLimit
deriving DecidableEq, Repr

/-- `Math.max(usage - limit, 0)` over JS numbers that are naturals here. -/
def jsMaxSubZero (a b : Nat) : Nat := ((a : Int) - (b : Int)).toNat

def getSubscriptionStatus (st : ServerState) (userId : String) (nowMs : Nat) :
    SubscriptionStatus × ServerState :=
  let r := getOrCreateSubscription st userId nowMs
  let limits := PLAN_LIMITS r.1.plan
  let usage := r.2.lms.getUserUsageSnapshot userId
  (⟨r.1.plan, limits, usage,
    ⟨jsMaxSubZero usage.createdCourses limits.maxCreatedCourses,
     jsMaxSubZero usage.activeEnrollments limits.maxActiveEnrollments,
     jsMaxSubZero usage.ownedStorageBytes limits.maxOwnedStorageBytes⟩⟩, r.2)

structure SubscriptionMeta where
  plan : SubscriptionPlan
  softLimitExceeded : Bool
  softLimit : SoftLimit
deriving DecidableEq, Repr

def withSoftLimitMeta (st : ServerState) (userId : String) (nowMs : Nat) :
    SubscriptionMeta × ServerState :=
  let r := getSubscriptionStatus st userId nowMs
  (⟨r.1.plan,
    decide (r.1.softLimit.createdCoursesExceededBy > 0 ∨
      r.1.softLimit.activeEnrollmentsExceededBy > 0 ∨
      r.1.softLimit.ownedStorageBytesExceededBy > 0),
    r.1.softLimit⟩, r.2)

structure Principal where
  sub : String
  role : Role
deriving DecidableEq, Repr

structure ErrResp where
  status : Nat
  error : String
deriving DecidableEq, Repr

/-- `handleLmsError`: the transport mapping of `LmsModelError` codes. -/
def handleLmsError (e : LmsModelError) : ErrResp :=
  match e.code with
  | .ACCESS_DENIED => ⟨403, "ACCESS_DENIED"⟩
  | .NOT_FOUND => ⟨404, "NOT_FOUND"⟩
  | .DUPLICATE => ⟨409, "DUPLICATE"⟩
  | .INVALID_RELATION => ⟨400, "INVALID_RELATION"⟩

structure CourseBody where
  id : String
  title : String
deriving DecidableEq, Repr

/-- `POST /lms/courses`: role guard, schema check, `createCourse` with
`createdBy = req.auth.sub`, then the soft-limit annotation on the 201
response. -/
def postLmsCourses (st : ServerState) (auth : Principal) (nowMs : Nat)
    (body : CourseBody) :
    Except ErrResp (Nat × Course × SubscriptionMeta) × ServerState :=
  if ¬(auth.role = .Admin ∨ auth.role = .Instructor) then
    (.error ⟨403, "forbidden"⟩, st)
  else if body.id.length = 0 ∨ body.title.length = 0 then
    (.error ⟨400, "invalid_input"⟩, st)
  else
    let r := st.lms.createCourse nowMs ⟨body.id, body.title, auth.sub⟩
    match r.1 with
    | .error e => (.error (handleLmsError e), { st with lms := r.2 })
    | .ok course =>
      let m := withSoftLimitMeta { st with lms := r.2 } auth.sub nowMs
      (.ok (201, course, m.1), m.2)

structure PlanBody where
  userId : String
  plan : SubscriptionPlan
deriving DecidableEq, Repr

/-- `POST /subscription/plan`: Admin only, target user must exist, then the
record is replaced. -/
def postSubscriptionPlan (st : ServerState) (auth : Principal) (nowMs : Nat)
    (body : PlanBody) : Except ErrResp SubscriptionRecord × ServerState :=
  if auth.role ≠ .Admin then (.error ⟨403, "forbidden"⟩, st)
  else if body.userId.length = 0 then (.error ⟨400, "invalid_input"⟩, st)
  else if ¬(alHas st.usersById body.userId) then (.error ⟨404, "not_found"⟩, st)
  else
    (.ok ⟨body.userId, body.plan, nowMs⟩,
      { st with subscriptionsByUserId :=
          (alSet st.subscriptionsByUserId body.userId
            ⟨body.userId, body.plan, nowMs⟩) })

structure ModuleBody where
  id : String
  courseId : String
  title : String
  position : Int
deriving DecidableEq, Repr

/-- `req.auth.role === "Instructor" && !canInstructorManageCourse(sub,
courseId)` inside the try block: `ok true` means the 403 branch fires;
`getCourse`'s `NOT_FOUND` throw propagates as an error. -/
def instructorOwnershipGate (st : ServerState) (auth : Principal)
    (courseId : String) : Except LmsModelError Bool :=
  if auth.role = .Instructor then
    match st.lms.getCourse courseId with
    | .error e => .error e
    | .ok c => .ok (c.createdBy ≠ auth.sub)
  else .ok false

def postLmsModules (st : ServerState) (auth : Principal) (body : ModuleBody) :
    Except ErrResp Module × ServerState :=
  if ¬(auth.role = .Admin ∨ auth.role = .Instructor) then
    (.error ⟨403, "forbidden"⟩, st)
  else if body.id.length = 0 ∨ body.courseId.length = 0 ∨
      body.title.length = 0 ∨ body.position ≤ 0 then
    (.error ⟨400, "invalid_input"⟩, st)
  else
    match instructorOwnershipGate st auth body.courseId with
    | .error e => (.error (handleLmsError e), st)
    | .ok forbidden =>
      if forbidden then (.error ⟨403, "forbidden"⟩, st)
      else
        let r := st.lms.createModule
          ⟨body.id, body.courseId, body.title, body.position⟩
        match r.1 with
        | .error e => (.error (handleLmsError e), { st with lms := r.2 })
        | .ok row => (.ok row, { st with lms := r.2 })

structure LessonBody where
  id : String
  moduleId : String
  title : String
  position : Int
deriving DecidableEq, Repr

/-- Instructor path of `POST /lms/lessons`: resolve the course through
`getCourseIdForModule` (throws `NOT_FOUND` for a missing module), then the
ownership check. -/
def lessonOwnershipGate (st : ServerState) (auth : Principal)
    (moduleId : String) : Except LmsModelError Bool :=
  if auth.role = .Instructor then
    match st.lms.getCourseIdForModule moduleId with
    | .error e => .error e
    | .ok courseId =>
      match st.lms.getCourse courseId with
      | .error e => .error e
      | .ok c => .ok (c.createdBy ≠ auth.sub)
  else .ok false

def postLmsLessons (st : ServerState) (auth : Principal) (body : LessonBody) :
    Except ErrResp Lesson × ServerState :=
  if ¬(auth.role = .Admin ∨ auth.role = .Instructor) then
    (.error ⟨403, "forbidden"⟩, st)
  else if body.id.length = 0 ∨ body.moduleId.length = 0 ∨
      body.title.length = 0 ∨ body.position ≤ 0 then
    (.error ⟨400, "invalid_input"⟩, st)
  else
    match lessonOwnershipGate st auth body.moduleId with
    | .error e => (.error (handleLmsError e), st)
    | .ok forbidden =>
      if forbidden then (.error ⟨403, "forbidden"⟩, st)
      else
        let r := st.lms.createLesson
          ⟨body.id, body.moduleId, body.title, body.position⟩
        match r.1 with
        | .error e => (.error (handleLmsError e), { st with lms := r.2 })
        | .ok row => (.ok row, { st with lms := r.2 })

structure EnrollmentBody where
  id : String
  courseId : String
  userId : String
deriving DecidableEq, Repr

def postLmsEnrollments (st : ServerState) (auth : Principal) (nowMs : Nat)
    (body : EnrollmentBody) :
    Except ErrResp (Nat × Enrollment × SubscriptionMeta) × ServerState :=
  if ¬(auth.role = .Admin ∨ auth.role = .Instructor ∨ auth.role = .Student) then
    (.error ⟨403, "forbidden"⟩, st)
  else if body.id.length = 0 ∨ body.courseId.length = 0 ∨
      body.userId.length = 0 then
    (.error ⟨400, "invalid_input"⟩, st)
  else if auth.role = .Student ∧ auth.sub ≠ body.userId then
    (.error ⟨403, "forbidden"⟩, st)
  else
    let r := st.lms.enrollStudent nowMs ⟨body.id, body.courseId, body.userId⟩
    match r.1 with
    | .error e => (.error (handleLmsError e), { st with lms := r.2 })
    | .ok row =>
      let m := withSoftLimitMeta { st with lms := r.2 } body.userId nowMs
      (.ok (201, row, m.1), m.2)

instance {ε α : Type} [DecidableEq ε] [DecidableEq α] :
    DecidableEq (Except ε α) := fun x y =>
  match x, y with
  | .error a, .error b =>
    if h : a = b then .isTrue (by rw [h])
    else .isFalse (by intro hc; injection hc; contradiction)
  | .error _, .ok _ => .isFalse (by intro hc; cases hc)
  | .ok _, .error _ => .isFalse (by intro hc; cases hc)
  | .ok a, .ok b =>
    if h : a = b then .isTrue (by rw [h])
    else .isFalse (by intro hc; injection hc; contradiction)

/-- The empty server state. -/
def ServerState.empty : ServerState := ⟨[], [], [], [], LmsCoreStore.empty⟩

def c9Lms : LmsCoreStore :=
  runOps LmsCoreStore.empty
    [.createCourseOp 0 ⟨"c1", "C1", "u1"⟩, .createCourseOp 0 ⟨"c2", "C2", "u1"⟩]

def c9State : ServerState :=
  ⟨[("u1", ⟨"u1", "u1@example.com", "U1", .Instructor, 0, 0, 1⟩),
    ("adm", ⟨"adm", "adm@example.com", "A", .Admin, 0, 0, 1⟩)],
   [("u1", ⟨"u1", .free, 0⟩)], [], [], c9Lms⟩

def c9After : ServerState :=
  { c9State with lms := (c9Lms.createCourse 5 ⟨"c3", "C3", "u1"⟩).2 }

def demoEnv : EnvCfg := ⟨900, 604800⟩

def demoUser : User := ⟨"u1", "u1@example.com", "User One", .Student, 0, 0, 1⟩

def demoAuthBase : ServerState :=
  ⟨[("u1", demoUser)], [], [], [], LmsCoreStore.empty⟩

def demoLogin : RefreshClaims × ServerState :=
  toAuthResponseState demoEnv demoAuthBase 1000 "sid1" demoUser

end NavCloud

namespace NavCloud

open LmsCoreStore

theorem alGet_set_self {α : Type} (m : List (String × α)) (k : String) (v : α) :
    alGet (alSet m k v) k = some v := by
  induction m with
  | nil => simp [alGet, alSet]
  | cons p rest ih =>
    obtain ⟨k', v'⟩ := p
    by_cases h : k' = k <;> simp [alGet, alSet, h, ih]

theorem alGet_set_ne {α : Type} (m : List (String × α)) (k k' : String) (v : α)
    (h : k ≠ k') : alGet (alSet m k v) k' = alGet m k' := by
  induction m with
  | nil => simp [alGet, alSet, h]
  | cons p rest ih =>
    obtain ⟨k₀, v₀⟩ := p
    by_cases h0 : k₀ = k
    · subst h0
      simp [alGet, alSet, h]
    · by_cases h1 : k₀ = k' <;> simp [alGet, alSet, h0, h1, ih, Ne.symm h]

theorem alGet_mem {α : Type} {m : List (String × α)} {k : String} {v : α}
    (h : alGet m k = some v) : (k, v) ∈ m := by
  induction m with
  | nil => simp [alGet] at h
  | cons p rest ih =>
    obtain ⟨k', v'⟩ := p
    by_cases h0 : k' = k
    · subst h0
      simp [alGet] at h
      simp [h]
    · simp [alGet, h0] at h
      exact List.mem_cons_of_mem _ (ih h)

theorem mem_alSet {α : Type} {m : List (String × α)} {k : String} {v : α}
    {p : String × α} (h : p ∈ alSet m k v) : p = (k, v) ∨ p ∈ m := by
  induction m with
  | nil => simpa [alSet] using h
  | cons q rest ih =>
    obtain ⟨k', v'⟩ := q
    by_cases h0 : k' = k
    · simp [alSet, h0] at h
      rcases h with h | h
      · exact Or.inl h
      · exact Or.inr (List.mem_cons_of_mem _ h)
    · simp [alSet, h0] at h
      rcases h with h | h
      · exact Or.inr (by simp [h])
      · rcases ih h with h' | h'
        · exact Or.inl h'
        · exact Or.inr (List.mem_cons_of_mem _ h')

theorem alHas_of_alGet {α : Type} {m : List (String × α)} {k : String} {v : α}
    (h : alGet m k = some v) : alHas m k = true := by
  simp [alHas, h]

theorem exists_of_alHas {α : Type} {m : List (String × α)} {k : String}
    (h : alHas m k = true) : ∃ v, alGet m k = some v := by
  simpa [alHas, Option.isSome_iff_exists] using h

theorem alHas_set {α : Type} (m : List (String × α)) (k k' : String) (v : α) :
    alHas (alSet m k v) k' = (k = k' || alHas m k') := by
  by_cases h : k = k'
  · subst h
    simp [alHas, alGet_set_self]
  · simp [alHas, alGet_set_ne m k k' v h, h]

/-- Membership in the original list is preserved by `alSet` at a key that is
absent from the list. -/
theorem mem_alSet_of_mem {α : Type} {m : List (String × α)} {p : String × α}
    (hp : p ∈ m) (k : String) (v : α) (hk : alHas m k = false) :
    p ∈ alSet m k v := by
  induction m with
  | nil => cases hp
  | cons q rest ih =>
    obtain ⟨k', v'⟩ := q
    by_cases h0 : k' = k
    · subst h0
      simp [alHas, alGet] at hk
    · simp [alSet, h0]
      rcases List.mem_cons.mp hp with h | h
      · exact Or.inl h
      · refine Or.inr (ih h ?_)
        simpa [alHas, alGet, h0] using hk

theorem alGet_setAll_not_written {α : Type} (ws : List (String × α))
    (m : List (String × α)) (k : String) (h : k ∉ ws.map Prod.fst) :
    alGet (alSetAll m ws) k = alGet m k := by
  induction ws generalizing m with
  | nil => rfl
  | cons w rest ih =>
    obtain ⟨k', v'⟩ := w
    have h1 : k' ≠ k := fun hk => h (by simp [hk])
    have h2 : k ∉ rest.map Prod.fst := fun hk => h (by simp [hk])
    rw [alSetAll, ih _ h2, alGet_set_ne _ _ _ _ h1]

theorem alGet_setAll_written {α : Type} (ws : List (String × α))
    (m : List (String × α)) (k : String) (v : α) (hmem : (k, v) ∈ ws)
    (hcons : ∀ p ∈ ws, p.1 = k → p.2 = v) :
    alGet (alSetAll m ws) k = some v := by
  induction ws generalizing m with
  | nil => cases hmem
  | cons w rest ih =>
    obtain ⟨k', v'⟩ := w
    by_cases hrest : k ∈ rest.map Prod.fst
    · have : (k, v) ∈ rest := by
        simp only [List.mem_map] at hrest
        obtain ⟨p, hp, hpk⟩ := hrest
        have := hcons p (List.mem_cons_of_mem _ hp) hpk
        rw [← this, ← hpk]
        exact hp
      exact ih _ this (fun p hp => hcons p (List.mem_cons_of_mem _ hp))
    · rcases List.mem_cons.mp hmem with h | h
      · obtain ⟨hk, hv⟩ := Prod.mk.injEq .. ▸ h.symm
        subst hk
        subst hv
        rw [alSetAll, alGet_setAll_not_written _ _ _ hrest, alGet_set_self]
      · exact absurd (List.mem_map.mpr ⟨(k, v), h, rfl⟩) hrest

theorem mem_alSetAll {α : Type} {ws : List (String × α)}
    {m : List (String × α)} {p : String × α} (h : p ∈ alSetAll m ws) :
    p ∈ m ∨ p ∈ ws := by
  induction ws generalizing m with
  | nil => exact Or.inl h
  | cons w rest ih =>
    obtain ⟨k, v⟩ := w
    rcases ih h with h' | h'
    · rcases mem_alSet h' with h'' | h''
      · exact Or.inr (by simp [h''])
      · exact Or.inl h''
    · exact Or.inr (List.mem_cons_of_mem _ h')

theorem alHas_mono {α : Type} {m : List (String × α)} {k : String}
    (h : alHas m k = true) (k' : String) (v : α) :
    alHas (alSet m k' v) k = true := by
  rw [alHas_set]
  simp [h]

theorem alHas_setAll_mono {α : Type} (ws : List (String × α))
    {m : List (String × α)} {k : String} (h : alHas m k = true) :
    alHas (alSetAll m ws) k = true := by
  induction ws generalizing m with
  | nil => exact h
  | cons w rest ih =>
    obtain ⟨k', v'⟩ := w
    exact ih (alHas_mono h k' v')

theorem string_append_right_cancel {a b c : String} (h : a ++ c = b ++ c) :
    a = b := by
  apply String.ext
  have h' := congrArg String.data h
  simp only [String.data_append] at h'
  exact List.append_cancel_right h'

theorem string_append_left_cancel {a b c : String} (h : a ++ b = a ++ c) :
    b = c := by
  apply String.ext
  have h' := congrArg String.data h
  simp only [String.data_append] at h'
  exact List.append_cancel_left h'

/-- The ids built by the fan-out loops determine their components. -/
theorem progress_id_inj_left {e1 e2 l : String}
    (h : e1 ++ ":" ++ l = e2 ++ ":" ++ l) : e1 = e2 :=
  string_append_right_cancel (string_append_right_cancel h)

theorem progress_id_inj_right {e l1 l2 : String}
    (h : e ++ ":" ++ l1 = e ++ ":" ++ l2) : l1 = l2 := by
  rw [String.append_assoc, String.append_assoc] at h
  exact string_append_left_cancel (string_append_left_cancel h)

theorem mem_pushIndex_self (index : List (String × List String))
    (key value : String) :
    value ∈ (alGet (pushIndex index key value) key).getD [] := by
  rw [pushIndex, alGet_set_self]
  simp

theorem mem_pushIndex_of_mem {index : List (String × List String)}
    {key' x : String} (h : x ∈ (alGet index key').getD [])
    (key value : String) :
    x ∈ (alGet (pushIndex index key value) key').getD [] := by
  by_cases hk : key = key'
  · subst hk
    rw [pushIndex, alGet_set_self]
    simp only [Option.getD_some]
    exact List.mem_append_left _ h
  · rw [pushIndex, alGet_set_ne _ _ _ _ hk]
    exact h

namespace LmsCoreStore

theorem createCourse_error_state {st : LmsCoreStore} {now : Nat}
    {input : CreateCourseInput} {e : LmsModelError}
    (h : (createCourse st now input).1 = .error e) :
    (createCourse st now input).2 = st := by
  unfold createCourse at h ⊢
  split at h <;> simp_all

theorem createModule_error_state {st : LmsCoreStore}
    {input : CreateModuleInput} {e : LmsModelError}
    (h : (createModule st input).1 = .error e) :
    (createModule st input).2 = st := by
  unfold createModule at h ⊢
  split at h <;> (try split at h) <;> (try split at h) <;> simp_all

theorem createLesson_error_state {st : LmsCoreStore}
    {input : CreateLessonInput} {e : LmsModelError}
    (h : (createLesson st input).1 = .error e) :
    (createLesson st input).2 = st := by
  unfold createLesson at h ⊢
  split at h <;> (try split at h) <;> (try split at h) <;> simp_all

theorem enrollStudent_error_state {st : LmsCoreStore} {now : Nat}
    {input : EnrollStudentInput} {e : LmsModelError}
    (h : (enrollStudent st now input).1 = .error e) :
    (enrollStudent st now input).2 = st := by
  unfold enrollStudent at h ⊢
  split at h <;> (try split at h) <;> (try split at h) <;> simp_all

theorem attachLessonContent_error_state {st : LmsCoreStore} {now : Nat}
    {input : AttachLessonContentInput} {e : LmsModelError}
    (h : (attachLessonContent st now input).1 = .error e) :
    (attachLessonContent st now input).2 = st := by
  unfold attachLessonContent at h ⊢
  split at h <;> simp_all

theorem markLessonProgress_error_state {st : LmsCoreStore} {now : Nat}
    {input : MarkLessonProgressInput} {e : LmsModelError}
    (h : (markLessonProgress st now input).1 = .error e) :
    (markLessonProgress st now input).2 = st := by
  unfold markLessonProgress at h ⊢
  split at h <;> (try split at h) <;> (try split at h) <;>
    (try split at h) <;> (try split at h) <;> (try split at h) <;> simp_all

end LmsCoreStore

/-- C3: for an existing enrollment, `getCourseCompletionPercent` returns
`round (100 * K / N)` where `N` counts the Progress rows indexed for the
enrollment and `K` counts the completed ones (also `0` when `N = 0`, which the
uniform formula subsumes since `x / 0 = 0` for rationals); for a nonexistent
enrollment it fails with `NOT_FOUND`. -/
theorem c3_completion_percent (st : LmsCoreStore) (eid : String) :
    (∀ E, alGet st.enrollments eid = some E →
      getCourseCompletionPercent st eid =
        .ok (round ((100 * (completedProgressCount st eid : ℚ)) /
          (indexedProgressCount st eid : ℚ))) ∧
      (indexedProgressCount st eid = 0 →
        getCourseCompletionPercent st eid = .ok 0)) ∧
    (alGet st.enrollments eid = none →
      getCourseCompletionPercent st eid =
        .error ⟨.NOT_FOUND, "enrollment does not exist: " ++ eid⟩) := by
  constructor
  · intro E hE
    by_cases h0 : ((alGet st.progressIdsByEnrollment eid).getD []).length = 0
    · constructor
      · simp [getCourseCompletionPercent, hE, h0, indexedProgressCount,
          completedProgressCount]
      · intro _
        simp [getCourseCompletionPercent, hE, h0]
    · constructor
      · simp only [getCourseCompletionPercent, hE, h0, if_false,
          indexedProgressCount, completedProgressCount]
        congr 1
        rw [jsMathRound, round_eq, div_mul_eq_mul_div, mul_comm]
      · intro hN
        exact absurd hN (by simpa [indexedProgressCount] using h0)
  · intro hE
    simp [getCourseCompletionPercent, hE]

theorem c3_completion_percent_witness :
    getCourseCompletionPercent c3Store "e1" =
      .ok (round ((100 * (completedProgressCount c3Store "e1" : ℚ)) /
        (indexedProgressCount c3Store "e1" : ℚ))) :=
  ((c3_completion_percent c3Store "e1").1 ⟨"e1", "c1", "u1", 0⟩ rfl).1

/-- C10: every mutating Domain Store operation is atomic on error — whenever
it returns an `LmsModelError`, the post-call store equals the store before the
call, because in the source every validation check precedes the first write. -/
theorem except_map_error {α β γ : Type} {f : α → β} {x : Except γ α} {e : γ}
    (h : x.map f = .error e) : x = .error e := by
  cases x with
  | error a => simp [Except.map] at h; simp [h]
  | ok v => simp [Except.map] at h

theorem fanOutLesson_progress (lessonId : String) (ids : List String)
    (pr : List (String × Progress)) (idx : List (String × List String)) :
    (fanOutLesson lessonId ids pr idx).1 =
      alSetAll pr (lessonFanWrites lessonId ids) := by
  induction ids generalizing pr idx with
  | nil => rfl
  | cons e rest ih =>
    rw [fanOutLesson, ih]
    rfl

theorem fanOutEnrollment_progress (enrollmentId : String) (ls : List Lesson)
    (pr : List (String × Progress)) (idx : List (String × List String)) :
    (fanOutEnrollment enrollmentId ls pr idx).1 =
      alSetAll pr (enrollmentFanWrites enrollmentId ls) := by
  induction ls generalizing pr idx with
  | nil => rfl
  | cons l rest ih =>
    rw [fanOutEnrollment, ih]
    rfl

theorem lessonFanWrites_consistent (lessonId : String) (ids : List String)
    {k : String} {v : Progress} (hmem : (k, v) ∈ lessonFanWrites lessonId ids) :
    ∀ p ∈ lessonFanWrites lessonId ids, p.1 = k → p.2 = v := by
  intro p hp hpk
  simp only [lessonFanWrites, List.mem_map] at hmem hp
  obtain ⟨e1, _, heq1⟩ := hmem
  obtain ⟨e2, _, heq2⟩ := hp
  injection heq1 with hk1 hv1
  subst hk1
  subst hv1
  rw [← heq2] at hpk ⊢
  dsimp only at hpk ⊢
  rw [progress_id_inj_left hpk]

theorem enrollmentFanWrites_consistent (enrollmentId : String) (ls : List Lesson)
    {k : String} {v : Progress}
    (hmem : (k, v) ∈ enrollmentFanWrites enrollmentId ls) :
    ∀ p ∈ enrollmentFanWrites enrollmentId ls, p.1 = k → p.2 = v := by
  intro p hp hpk
  simp only [enrollmentFanWrites, List.mem_map] at hmem hp
  obtain ⟨l1, _, heq1⟩ := hmem
  obtain ⟨l2, _, heq2⟩ := hp
  injection heq1 with hk1 hv1
  subst hk1
  subst hv1
  rw [← heq2] at hpk ⊢
  dsimp only at hpk ⊢
  rw [progress_id_inj_right hpk]

theorem fanOutLesson_get_written (lessonId : String) (ids : List String)
    (pr : List (String × Progress)) (idx : List (String × List String))
    {e : String} (he : e ∈ ids) :
    alGet (fanOutLesson lessonId ids pr idx).1 (e ++ ":" ++ lessonId) =
      some ⟨e ++ ":" ++ lessonId, e, lessonId, .not_started, none⟩ := by
  rw [fanOutLesson_progress]
  exact alGet_setAll_written _ _ _ _
    (List.mem_map.mpr ⟨e, he, rfl⟩)
    (lessonFanWrites_consistent _ _ (List.mem_map.mpr ⟨e, he, rfl⟩))

theorem fanOutLesson_get_not_written (lessonId : String) (ids : List String)
    (pr : List (String × Progress)) (idx : List (String × List String))
    {pid : String} (h : ∀ e ∈ ids, pid ≠ e ++ ":" ++ lessonId) :
    alGet (fanOutLesson lessonId ids pr idx).1 pid = alGet pr pid := by
  rw [fanOutLesson_progress]
  apply alGet_setAll_not_written
  intro hmem
  simp only [lessonFanWrites, List.map_map, List.mem_map] at hmem
  obtain ⟨e, he, heq⟩ := hmem
  exact h e he heq.symm

theorem fanOutLesson_has_mono (lessonId : String) (ids : List String)
    (pr : List (String × Progress)) (idx : List (String × List String))
    {pid : String} (h : alHas pr pid = true) :
    alHas (fanOutLesson lessonId ids pr idx).1 pid = true := by
  rw [fanOutLesson_progress]
  exact alHas_setAll_mono _ h

theorem fanOutEnrollment_get_written (enrollmentId : String) (ls : List Lesson)
    (pr : List (String × Progress)) (idx : List (String × List String))
    {l : Lesson} (hl : l ∈ ls) :
    alGet (fanOutEnrollment enrollmentId ls pr idx).1 (enrollmentId ++ ":" ++ l.id) =
      some ⟨enrollmentId ++ ":" ++ l.id, enrollmentId, l.id, .not_started, none⟩ := by
  rw [fanOutEnrollment_progress]
  exact alGet_setAll_written _ _ _ _
    (List.mem_map.mpr ⟨l, hl, rfl⟩)
    (enrollmentFanWrites_consistent _ _ (List.mem_map.mpr ⟨l, hl, rfl⟩))

theorem fanOutEnrollment_get_not_written (enrollmentId : String) (ls : List Lesson)
    (pr : List (String × Progress)) (idx : List (String × List String))
    {pid : String} (h : ∀ l ∈ ls, pid ≠ enrollmentId ++ ":" ++ l.id) :
    alGet (fanOutEnrollment enrollmentId ls pr idx).1 pid = alGet pr pid := by
  rw [fanOutEnrollment_progress]
  apply alGet_setAll_not_written
  intro hmem
  simp only [enrollmentFanWrites, List.map_map, List.mem_map] at hmem
  obtain ⟨l, hl, heq⟩ := hmem
  exact h l hl heq.symm

theorem fanOutEnrollment_has_mono (enrollmentId : String) (ls : List Lesson)
    (pr : List (String × Progress)) (idx : List (String × List String))
    {pid : String} (h : alHas pr pid = true) :
    alHas (fanOutEnrollment enrollmentId ls pr idx).1 pid = true := by
  rw [fanOutEnrollment_progress]
  exact alHas_setAll_mono _ h

theorem c10_error_atomicity (st : LmsCoreStore) (op : StoreOp)
    (e : LmsModelError) (h : (applyStoreOp st op).1 = .error e) :
    (applyStoreOp st op).2 = st := by
  cases op with
  | createCourseOp now input =>
    simp only [applyStoreOp] at h ⊢
    exact createCourse_error_state (except_map_error h)
  | createModuleOp input =>
    simp only [applyStoreOp] at h ⊢
    exact createModule_error_state (except_map_error h)
  | createLessonOp input =>
    simp only [applyStoreOp] at h ⊢
    exact createLesson_error_state (except_map_error h)
  | enrollStudentOp now input =>
    simp only [applyStoreOp] at h ⊢
    exact enrollStudent_error_state (except_map_error h)
  | attachLessonContentOp now input =>
    simp only [applyStoreOp] at h ⊢
    exact attachLessonContent_error_state (except_map_error h)
  | markLessonProgressOp now input =>
    simp only [applyStoreOp] at h ⊢
    exact markLessonProgress_error_state (except_map_error h)

theorem WF_empty : WF LmsCoreStore.empty := by
  constructor <;> intro p hp <;> cases hp

theorem WF_createCourse {st : LmsCoreStore} (hwf : WF st) (now : Nat)
    (input : CreateCourseInput) : WF (st.createCourse now input).2 := by
  unfold LmsCoreStore.createCourse
  split
  · exact hwf
  · rename_i hdup
    rw [Bool.not_eq_true] at hdup
    refine ⟨?_, ?_, ?_, ?_, ?_, ?_, ?_, ?_, ?_, ?_, ?_⟩
    · intro p hp
      rcases mem_alSet hp with h | h
      · rw [h]
      · exact hwf.coursesKeys p h
    · exact hwf.modulesKeys
    · exact hwf.lessonsKeys
    · exact hwf.enrollmentsKeys
    · intro p hp
      exact alHas_mono (hwf.moduleCourseRef p hp) _ _
    · exact hwf.lessonModuleRef
    · intro p hp
      exact alHas_mono (hwf.enrollmentCourseRef p hp) _ _
    · intro p hp
      have hne : input.id ≠ p.2.courseId := by
        intro he
        rw [he] at hdup
        rw [hwf.moduleCourseRef p hp] at hdup
        cases hdup
      rw [alGet_set_ne _ _ _ _ hne]
      exact hwf.moduleIndexed p hp
    · exact hwf.lessonIndexed
    · intro p hp
      have hne : input.id ≠ p.2.courseId := by
        intro he
        rw [he] at hdup
        rw [hwf.enrollmentCourseRef p hp] at hdup
        cases hdup
      rw [alGet_set_ne _ _ _ _ hne]
      exact hwf.enrollmentIndexed p hp
    · exact hwf.pairs

theorem WF_attachLessonContent {st : LmsCoreStore} (hwf : WF st) (now : Nat)
    (input : AttachLessonContentInput) :
    WF (st.attachLessonContent now input).2 := by
  unfold LmsCoreStore.attachLessonContent
  split
  · exact hwf
  · exact ⟨hwf.coursesKeys, hwf.modulesKeys, hwf.lessonsKeys, hwf.enrollmentsKeys,
      hwf.moduleCourseRef, hwf.lessonModuleRef, hwf.enrollmentCourseRef,
      hwf.moduleIndexed, hwf.lessonIndexed, hwf.enrollmentIndexed, hwf.pairs⟩

theorem WF_markLessonProgress {st : LmsCoreStore} (hwf : WF st) (now : Nat)
    (input : MarkLessonProgressInput) :
    WF (st.markLessonProgress now input).2 := by
  unfold LmsCoreStore.markLessonProgress
  split
  · exact hwf
  split
  · exact hwf
  split
  · exact hwf
  split
  · exact hwf
  split
  · exact hwf
  split
  · exact hwf
  · exact ⟨hwf.coursesKeys, hwf.modulesKeys, hwf.lessonsKeys, hwf.enrollmentsKeys,
      hwf.moduleCourseRef, hwf.lessonModuleRef, hwf.enrollmentCourseRef,
      hwf.moduleIndexed, hwf.lessonIndexed, hwf.enrollmentIndexed,
      fun pe hpe pl hpl M hM hc =>
        alHas_mono (hwf.pairs pe hpe pl hpl M hM hc) _ _⟩

theorem alHas_of_mem {α : Type} {m : List (String × α)} {p : String × α}
    (h : p ∈ m) : alHas m p.1 = true := by
  induction m with
  | nil => cases h
  | cons q rest ih =>
    obtain ⟨k, v⟩ := q
    rcases List.mem_cons.mp h with h' | h'
    · rw [h']
      simp [alHas, alGet]
    · simp only [alHas, alGet]
      by_cases hk : k = p.1
      · simp [hk]
      · simpa [hk, alHas] using ih h'

theorem WF_createModule {st : LmsCoreStore} (hwf : WF st)
    (input : CreateModuleInput) : WF (st.createModule input).2 := by
  unfold LmsCoreStore.createModule
  split
  · exact hwf
  rename_i course hcourse
  split
  · exact hwf
  rename_i hdup
  split
  · exact hwf
  rw [Bool.not_eq_true] at hdup
  refine ⟨?_, ?_, ?_, ?_, ?_, ?_, ?_, ?_, ?_, ?_, ?_⟩
  · exact hwf.coursesKeys
  · intro p hp
    rcases mem_alSet hp with h | h
    · rw [h]
    · exact hwf.modulesKeys p h
  · exact hwf.lessonsKeys
  · exact hwf.enrollmentsKeys
  · intro p hp
    rcases mem_alSet hp with h | h
    · rw [h]
      exact alHas_of_alGet hcourse
    · exact hwf.moduleCourseRef p h
  · intro p hp
    exact alHas_mono (hwf.lessonModuleRef p hp) _ _
  · exact hwf.enrollmentCourseRef
  · intro p hp
    rcases mem_alSet hp with h | h
    · rw [h]
      exact mem_pushIndex_self _ _ _
    · exact mem_pushIndex_of_mem (hwf.moduleIndexed p h) _ _
  · intro p hp
    have hne : input.id ≠ p.2.moduleId := by
      intro he
      rw [he] at hdup
      rw [hwf.lessonModuleRef p hp] at hdup
      cases hdup
    rw [alGet_set_ne _ _ _ _ hne]
    exact hwf.lessonIndexed p hp
  · exact hwf.enrollmentIndexed
  · intro pe hpe pl hpl M hM hc
    have hne : input.id ≠ pl.2.moduleId := by
      intro he
      rw [he] at hdup
      rw [hwf.lessonModuleRef pl hpl] at hdup
      cases hdup
    rw [alGet_set_ne _ _ _ _ hne] at hM
    exact hwf.pairs pe hpe pl hpl M hM hc

theorem WF_createLesson {st : LmsCoreStore} (hwf : WF st)
    (input : CreateLessonInput) : WF (st.createLesson input).2 := by
  unfold LmsCoreStore.createLesson
  split
  · exact hwf
  rename_i moduleRow hmod
  split
  · exact hwf
  rename_i hdup
  split
  · exact hwf
  rw [Bool.not_eq_true] at hdup
  refine ⟨?_, ?_, ?_, ?_, ?_, ?_, ?_, ?_, ?_, ?_, ?_⟩
  · exact hwf.coursesKeys
  · exact hwf.modulesKeys
  · intro p hp
    rcases mem_alSet hp with h | h
    · rw [h]
    · exact hwf.lessonsKeys p h
  · exact hwf.enrollmentsKeys
  · exact hwf.moduleCourseRef
  · intro p hp
    rcases mem_alSet hp with h | h
    · rw [h]
      exact alHas_of_alGet hmod
    · exact hwf.lessonModuleRef p h
  · exact hwf.enrollmentCourseRef
  · exact hwf.moduleIndexed
  · intro p hp
    rcases mem_alSet hp with h | h
    · rw [h]
      exact mem_pushIndex_self _ _ _
    · exact mem_pushIndex_of_mem (hwf.lessonIndexed p h) _ _
  · exact hwf.enrollmentIndexed
  · intro pe hpe pl hpl M hM hc
    rcases mem_alSet hpl with h | h
    · rw [h] at hM ⊢
      dsimp only at hM ⊢
      rw [hmod] at hM
      injection hM with hMeq
      subst hMeq
      have hidx := hwf.enrollmentIndexed pe hpe
      rw [← hc] at hidx
      exact alHas_of_alGet (fanOutLesson_get_written _ _ _ _ hidx)
    · exact fanOutLesson_has_mono _ _ _ _ (hwf.pairs pe hpe pl h M hM hc)

/-- Under `WF`, every lesson whose module belongs to course `M.courseId` is
returned (up to id) by `getLessonsForCourse`. -/
theorem lesson_in_getLessonsForCourse {st : LmsCoreStore} (hwf : WF st)
    {pl : String × Lesson} (hpl : pl ∈ st.lessons) {M : Module}
    (hM : alGet st.modules pl.2.moduleId = some M) :
    ∃ l' ∈ st.getLessonsForCourse M.courseId, l'.id = pl.2.id := by
  have hMmem : (pl.2.moduleId, M) ∈ st.modules := alGet_mem hM
  have hMid : M.id = pl.2.moduleId := hwf.modulesKeys _ hMmem
  have hMidx : M.id ∈ (alGet st.moduleIdsByCourse M.courseId).getD [] :=
    hwf.moduleIndexed _ hMmem
  have hLidx : pl.2.id ∈ (alGet st.lessonIdsByModule pl.2.moduleId).getD [] :=
    hwf.lessonIndexed pl hpl
  have hhas : alHas st.lessons pl.2.id = true := by
    rw [hwf.lessonsKeys pl hpl]
    exact alHas_of_mem hpl
  obtain ⟨v', hv'⟩ := exists_of_alHas hhas
  refine ⟨v', ?_, hwf.lessonsKeys _ (alGet_mem hv')⟩
  unfold LmsCoreStore.getLessonsForCourse
  apply List.mem_filterMap.mpr
  refine ⟨pl.2.id, ?_, hv'⟩
  apply List.mem_flatMap.mpr
  refine ⟨M.id, hMidx, ?_⟩
  rw [hMid]
  exact hLidx

theorem WF_enrollStudent {st : LmsCoreStore} (hwf : WF st) (now : Nat)
    (input : EnrollStudentInput) : WF (st.enrollStudent now input).2 := by
  unfold LmsCoreStore.enrollStudent
  split
  · exact hwf
  rename_i hcourse
  split
  · exact hwf
  rename_i hdupId
  split
  · exact hwf
  have hc : alHas st.courses input.courseId = true := by
    simpa using hcourse
  refine ⟨?_, ?_, ?_, ?_, ?_, ?_, ?_, ?_, ?_, ?_, ?_⟩
  · exact hwf.coursesKeys
  · exact hwf.modulesKeys
  · exact hwf.lessonsKeys
  · intro p hp
    rcases mem_alSet hp with h | h
    · rw [h]
    · exact hwf.enrollmentsKeys p h
  · exact hwf.moduleCourseRef
  · exact hwf.lessonModuleRef
  · intro p hp
    rcases mem_alSet hp with h | h
    · rw [h]
      exact hc
    · exact hwf.enrollmentCourseRef p h
  · exact hwf.moduleIndexed
  · exact hwf.lessonIndexed
  · intro p hp
    rcases mem_alSet hp with h | h
    · rw [h]
      exact mem_pushIndex_self _ _ _
    · exact mem_pushIndex_of_mem (hwf.enrollmentIndexed p h) _ _
  · intro pe hpe pl hpl M hM hc'
    rcases mem_alSet hpe with h | h
    · rw [h] at hc' ⊢
      dsimp only at hc' ⊢
      obtain ⟨l', hl', hlid⟩ := lesson_in_getLessonsForCourse hwf hpl hM
      rw [hc'] at hl'
      have := fanOutEnrollment_get_written input.id
        (st.getLessonsForCourse input.courseId) st.progress
        (alSet st.progressIdsByEnrollment input.id []) hl'
      rw [hlid] at this
      exact alHas_of_alGet this
    · exact fanOutEnrollment_has_mono _ _ _ _ (hwf.pairs pe h pl hpl M hM hc')

theorem WF_applyStoreOp {st : LmsCoreStore} (hwf : WF st) (op : StoreOp) :
    WF (applyStoreOp st op).2 := by
  cases op with
  | createCourseOp now input =>
    simp only [applyStoreOp]
    exact WF_createCourse hwf now input
  | createModuleOp input =>
    simp only [applyStoreOp]
    exact WF_createModule hwf input
  | createLessonOp input =>
    simp only [applyStoreOp]
    exact WF_createLesson hwf input
  | enrollStudentOp now input =>
    simp only [applyStoreOp]
    exact WF_enrollStudent hwf now input
  | attachLessonContentOp now input =>
    simp only [applyStoreOp]
    exact WF_attachLessonContent hwf now input
  | markLessonProgressOp now input =>
    simp only [applyStoreOp]
    exact WF_markLessonProgress hwf now input

theorem createLesson_ok_inv {st : LmsCoreStore} {input : CreateLessonInput}
    {l : Lesson} {st' : LmsCoreStore}
    (h : st.createLesson input = (.ok l, st')) :
    ∃ moduleRow, alGet st.modules input.moduleId = some moduleRow ∧
      l = ⟨input.id, input.moduleId, input.title, input.position⟩ ∧
      st'.progress = (fanOutLesson input.id
        ((alGet st.enrollmentIdsByCourse moduleRow.courseId).getD [])
        st.progress st.progressIdsByEnrollment).1 := by
  unfold LmsCoreStore.createLesson at h
  split at h
  · injection h with h1 h2
    cases h1
  rename_i moduleRow hmod
  split at h
  · injection h with h1 h2
    cases h1
  split at h
  · injection h with h1 h2
    cases h1
  injection h with h1 h2
  injection h1 with h1
  refine ⟨moduleRow, hmod, h1.symm, ?_⟩
  rw [← h2]

theorem enrollStudent_ok_inv {st : LmsCoreStore} {now : Nat}
    {input : EnrollStudentInput} {e : Enrollment} {st' : LmsCoreStore}
    (h : st.enrollStudent now input = (.ok e, st')) :
    e = ⟨input.id, input.courseId, input.userId, now⟩ ∧
    st'.progress = (fanOutEnrollment input.id
      (st.getLessonsForCourse input.courseId)
      st.progress (alSet st.progressIdsByEnrollment input.id [])).1 := by
  unfold LmsCoreStore.enrollStudent at h
  split at h
  · injection h with h1 h2
    cases h1
  split at h
  · injection h with h1 h2
    cases h1
  split at h
  · injection h with h1 h2
    cases h1
  injection h with h1 h2
  injection h1 with h1
  refine ⟨h1.symm, ?_⟩
  rw [← h2]
  rfl

/-- Full characterization of a `markLessonProgress` call whose referential
checks pass and whose Progress row exists: it succeeds for every previous row
status and sets `completedAt` to `now` exactly when the new status is
`completed`. -/
theorem markLessonProgress_ok_char (st : LmsCoreStore) (now : Nat)
    (input : MarkLessonProgressInput) {E : Enrollment} {L : Lesson}
    {M : Module} {row : Progress}
    (hE : alGet st.enrollments input.enrollmentId = some E)
    (hA : E.userId = input.actorUserId)
    (hL : alGet st.lessons input.lessonId = some L)
    (hM : alGet st.modules L.moduleId = some M)
    (hC : M.courseId = E.courseId)
    (hrow : alGet st.progress (E.id ++ ":" ++ L.id) = some row) :
    st.markLessonProgress now input =
      (.ok (updatedRow row input.status now),
        { st with progress := (alSet st.progress (E.id ++ ":" ++ L.id)
            (updatedRow row input.status now)) }) := by
  unfold LmsCoreStore.markLessonProgress
  rw [hE]
  dsimp only
  rw [if_neg (by simp [hA])]
  rw [hL]
  dsimp only
  rw [hM]
  dsimp only
  rw [if_neg (by simp [hC])]
  rw [hrow]
  rfl

theorem c10_error_atomicity_witness :
    (applyStoreOp LmsCoreStore.empty
        (.createModuleOp ⟨"m1", "c1", "t", 1⟩)).1 =
      .error ⟨.INVALID_RELATION, "course does not exist: c1"⟩ ∧
    (applyStoreOp LmsCoreStore.empty
        (.createModuleOp ⟨"m1", "c1", "t", 1⟩)).2 = LmsCoreStore.empty :=
  ⟨rfl, c10_error_atomicity LmsCoreStore.empty _ _ rfl⟩

/-- C2: the fan-out invariant. Every Domain Store operation preserves `WF`;
under `WF`, every (enrollment, lesson-of-its-course) pair has a Progress row
keyed `E.id:L.id`; `createLesson` writes exactly the `not_started` rows for
the enrollments indexed on the lesson's course and touches no other Progress
row; `enrollStudent` writes exactly the `not_started` rows for the lessons of
the course and touches no other Progress row; hence `markLessonProgress`
never misses its Progress row on a well-formed store. -/
theorem c2_progress_fanout_invariant :
    (∀ (st : LmsCoreStore) (op : StoreOp), WF st → WF (applyStoreOp st op).2) ∧
    (∀ st : LmsCoreStore, WF st →
      ∀ pe ∈ st.enrollments, ∀ pl ∈ st.lessons, ∀ M : Module,
        alGet st.modules (pl : String × Lesson).2.moduleId = some M →
        M.courseId = (pe : String × Enrollment).2.courseId →
        alHas st.progress (pe.2.id ++ ":" ++ pl.2.id) = true) ∧
    (∀ (st : LmsCoreStore) (input : LmsCoreStore.CreateLessonInput) (l : Lesson)
        (st' : LmsCoreStore) (M : Module),
      st.createLesson input = (.ok l, st') →
      alGet st.modules input.moduleId = some M →
      (∀ eid ∈ (alGet st.enrollmentIdsByCourse M.courseId).getD [],
        alGet st'.progress (eid ++ ":" ++ input.id) =
          some ⟨eid ++ ":" ++ input.id, eid, input.id, .not_started, none⟩) ∧
      (∀ pid, (∀ eid ∈ (alGet st.enrollmentIdsByCourse M.courseId).getD [],
          pid ≠ eid ++ ":" ++ input.id) →
        alGet st'.progress pid = alGet st.progress pid)) ∧
    (∀ (st : LmsCoreStore) (now : Nat) (input : LmsCoreStore.EnrollStudentInput)
        (e : Enrollment) (st' : LmsCoreStore),
      st.enrollStudent now input = (.ok e, st') →
      (∀ l ∈ st.getLessonsForCourse input.courseId,
        alGet st'.progress (input.id ++ ":" ++ l.id) =
          some ⟨input.id ++ ":" ++ l.id, input.id, l.id, .not_started, none⟩) ∧
      (∀ pid, (∀ l ∈ st.getLessonsForCourse input.courseId,
          pid ≠ input.id ++ ":" ++ l.id) →
        alGet st'.progress pid = alGet st.progress pid)) ∧
    (∀ (st : LmsCoreStore) (now : Nat) (input : LmsCoreStore.MarkLessonProgressInput)
        (E : Enrollment) (L : Lesson) (M : Module), WF st →
      alGet st.enrollments input.enrollmentId = some E →
      E.userId = input.actorUserId →
      alGet st.lessons input.lessonId = some L →
      alGet st.modules L.moduleId = some M →
      M.courseId = E.courseId →
      ∃ row, (st.markLessonProgress now input).1 = .ok row) := by
  refine ⟨?_, ?_, ?_, ?_, ?_⟩
  · intro st op hwf
    exact WF_applyStoreOp hwf op
  · intro st hwf pe hpe pl hpl M hM hc
    exact hwf.pairs pe hpe pl hpl M hM hc
  · intro st input l st' M h hM
    obtain ⟨moduleRow, hmod, _, hprog⟩ := createLesson_ok_inv h
    rw [hM] at hmod
    injection hmod with hmr
    subst hmr
    constructor
    · intro eid heid
      rw [hprog]
      exact fanOutLesson_get_written _ _ _ _ heid
    · intro pid hpid
      rw [hprog]
      exact fanOutLesson_get_not_written _ _ _ _ hpid
  · intro st now input e st' h
    obtain ⟨_, hprog⟩ := enrollStudent_ok_inv h
    constructor
    · intro l hl
      rw [hprog]
      exact fanOutEnrollment_get_written _ _ _ _ hl
    · intro pid hpid
      rw [hprog]
      exact fanOutEnrollment_get_not_written _ _ _ _ hpid
  · intro st now input E L M hwf hE hA hL hM hC
    have hpair : alHas st.progress (E.id ++ ":" ++ L.id) = true :=
      hwf.pairs _ (alGet_mem hE) _ (alGet_mem hL) M hM hC
    obtain ⟨row, hrow⟩ := exists_of_alHas hpair
    exact ⟨_, by rw [markLessonProgress_ok_char st now input hE hA hL hM hC hrow]⟩

theorem c2_progress_fanout_invariant_witness :
    WF demoStore ∧
    ∃ row, (demoStore.markLessonProgress 9
      ⟨"e1", "l1", "u1", .completed⟩).1 = .ok row := by
  have h1 := c2_progress_fanout_invariant.1
  have hwf : WF demoStore :=
    h1 _ _ (h1 _ _ (h1 _ _ (h1 _ _ WF_empty)))
  refine ⟨hwf, ?_⟩
  exact c2_progress_fanout_invariant.2.2.2.2 demoStore 9
    ⟨"e1", "l1", "u1", .completed⟩ ⟨"e1", "c1", "u1", 3⟩
    ⟨"l1", "m1", "Lesson 1", 1⟩ ⟨"m1", "c1", "Module 1", 1⟩
    hwf rfl rfl rfl rfl rfl

theorem ProgressInv_applyStoreOp {st : LmsCoreStore} (hinv : ProgressInv st)
    (op : StoreOp) : ProgressInv (applyStoreOp st op).2 := by
  cases op with
  | createCourseOp now input =>
    simp only [applyStoreOp]
    unfold LmsCoreStore.createCourse
    split
    · exact hinv
    · exact hinv
  | createModuleOp input =>
    simp only [applyStoreOp]
    unfold LmsCoreStore.createModule
    split
    · exact hinv
    split
    · exact hinv
    split
    · exact hinv
    · exact hinv
  | createLessonOp input =>
    simp only [applyStoreOp]
    unfold LmsCoreStore.createLesson
    split
    · exact hinv
    split
    · exact hinv
    split
    · exact hinv
    · intro p hp
      dsimp only at hp
      rw [fanOutLesson_progress] at hp
      rcases mem_alSetAll hp with h | h
      · exact hinv p h
      · simp only [lessonFanWrites, List.mem_map] at h
        obtain ⟨eid, _, heq⟩ := h
        rw [← heq]
        simp
  | enrollStudentOp now input =>
    simp only [applyStoreOp]
    unfold LmsCoreStore.enrollStudent
    split
    · exact hinv
    split
    · exact hinv
    split
    · exact hinv
    · intro p hp
      dsimp only at hp
      rw [fanOutEnrollment_progress] at hp
      rcases mem_alSetAll hp with h | h
      · exact hinv p h
      · simp only [enrollmentFanWrites, List.mem_map] at h
        obtain ⟨l, _, heq⟩ := h
        rw [← heq]
        simp
  | attachLessonContentOp now input =>
    simp only [applyStoreOp]
    unfold LmsCoreStore.attachLessonContent
    split
    · exact hinv
    · exact hinv
  | markLessonProgressOp now input =>
    simp only [applyStoreOp]
    unfold LmsCoreStore.markLessonProgress
    split
    · exact hinv
    split
    · exact hinv
    split
    · exact hinv
    split
    · exact hinv
    split
    · exact hinv
    split
    · exact hinv
    · intro p hp
      dsimp only at hp
      rcases mem_alSet hp with h | h
      · rw [h]
        by_cases hs : input.status = .completed <;> simp [hs]
      · exact hinv p h

/-- C8: `completedAt` is set iff the status is `completed`, on every store
reachable by the Domain Store operations; `markLessonProgress` succeeds for
any previous row status, returns/stores the row with `completedAt = now`
exactly when the new status is `completed` and `none` otherwise; and both
fan-out loops only write `not_started` rows with no `completedAt`. -/
theorem c8_completedAt_iff_completed :
    (∀ (st : LmsCoreStore) (op : StoreOp),
      ProgressInv st → ProgressInv (applyStoreOp st op).2) ∧
    (∀ (st : LmsCoreStore) (now : Nat)
        (input : LmsCoreStore.MarkLessonProgressInput)
        (E : Enrollment) (L : Lesson) (M : Module) (row : Progress),
      alGet st.enrollments input.enrollmentId = some E →
      E.userId = input.actorUserId →
      alGet st.lessons input.lessonId = some L →
      alGet st.modules L.moduleId = some M →
      M.courseId = E.courseId →
      alGet st.progress (E.id ++ ":" ++ L.id) = some row →
      st.markLessonProgress now input =
        (.ok (updatedRow row input.status now),
          { st with progress := (alSet st.progress (E.id ++ ":" ++ L.id)
              (updatedRow row input.status now)) }) ∧
      ((updatedRow row input.status now).completedAt = some now ↔
        input.status = .completed) ∧
      (input.status ≠ .completed →
        (updatedRow row input.status now).completedAt = none)) ∧
    (∀ (lessonId : String) (ids : List String),
      ∀ p ∈ lessonFanWrites lessonId ids,
        (p : String × Progress).2.status = .not_started ∧
        p.2.completedAt = none) ∧
    (∀ (enrollmentId : String) (ls : List Lesson),
      ∀ p ∈ enrollmentFanWrites enrollmentId ls,
        (p : String × Progress).2.status = .not_started ∧
        p.2.completedAt = none) := by
  refine ⟨?_, ?_, ?_, ?_⟩
  · intro st op hinv
    exact ProgressInv_applyStoreOp hinv op
  · intro st now input E L M row hE hA hL hM hC hrow
    refine ⟨markLessonProgress_ok_char st now input hE hA hL hM hC hrow, ?_, ?_⟩
    · by_cases hs : input.status = .completed <;> simp [updatedRow, hs]
    · intro hs
      simp [updatedRow, hs]
  · intro lessonId ids p hp
    simp only [lessonFanWrites, List.mem_map] at hp
    obtain ⟨eid, _, heq⟩ := hp
    rw [← heq]
    exact ⟨rfl, rfl⟩
  · intro enrollmentId ls p hp
    simp only [enrollmentFanWrites, List.mem_map] at hp
    obtain ⟨l, _, heq⟩ := hp
    rw [← heq]
    exact ⟨rfl, rfl⟩

theorem c8_completedAt_iff_completed_witness :
    ProgressInv (applyStoreOp demoStore
      (.markLessonProgressOp 9 ⟨"e1", "l1", "u1", .completed⟩)).2 ∧
    ((updatedRow ⟨"e1:l1", "e1", "l1", .not_started, none⟩ .completed 9).completedAt
        = some 9 ↔ ProgressStatus.completed = .completed) := by
  constructor
  · exact c8_completedAt_iff_completed.1 demoStore _ (by decide)
  · exact (c8_completedAt_iff_completed.2.1 demoStore 9
      ⟨"e1", "l1", "u1", .completed⟩ ⟨"e1", "c1", "u1", 3⟩
      ⟨"l1", "m1", "Lesson 1", 1⟩ ⟨"m1", "c1", "Module 1", 1⟩
      ⟨"e1:l1", "e1", "l1", .not_started, none⟩
      rfl rfl rfl rfl rfl (by decide)).2.1

theorem providerString_inj {a b : StorageProviderName}
    (h : providerString a = providerString b) : a = b := by
  cases a <;> cases b <;> revert h <;> decide

theorem decDigitVal_decDigitChar {d : Nat} (h : d < 10) :
    decDigitVal (decDigitChar d) = d := by
  interval_cases d <;> decide

theorem decDigitChar_isDigit {d : Nat} (h : d < 10) :
    (decDigitChar d).isDigit = true := by
  interval_cases d <;> decide

theorem decToNat_natToDec (n : Nat) : decToNat (natToDec n) = some n := by
  by_cases h0 : n = 0
  · subst h0
    decide
  · have hlt : ∀ d ∈ Nat.digits 10 n, d < 10 := fun d hd =>
      Nat.digits_lt_base (by norm_num) hd
    have hne : Nat.digits 10 n ≠ [] := Nat.digits_ne_nil_iff_ne_zero.mpr h0
    unfold natToDec
    rw [if_neg h0]
    unfold decToNat
    rw [if_pos ?side]
    case side =>
      refine ⟨by simpa using hne, ?_⟩
      simp only [List.all_eq_true, List.mem_reverse, List.mem_map]
      rintro c ⟨d, hd, rfl⟩
      exact decDigitChar_isDigit (hlt d hd)
    · congr 1
      have : (((Nat.digits 10 n).map decDigitChar).reverse.map decDigitVal).reverse
          = (Nat.digits 10 n).map (fun d => decDigitVal (decDigitChar d)) := by
        rw [← List.map_reverse, List.reverse_reverse, List.map_map]
        rfl
      rw [this, List.map_congr_left (fun d hd => decDigitVal_decDigitChar (hlt d hd))]
      simpa using Nat.ofDigits_digits 10 n

theorem payload_inj_exp {p k l u e1 e2 : String}
    (h : canonicalPayload p k l u e1 = canonicalPayload p k l u e2) :
    e1 = e2 := by
  unfold canonicalPayload at h
  exact string_append_left_cancel h

theorem payload_inj_userId {p k l u1 u2 e : String}
    (h : canonicalPayload p k l u1 e = canonicalPayload p k l u2 e) :
    u1 = u2 := by
  unfold canonicalPayload at h
  exact string_append_left_cancel
    (string_append_right_cancel (string_append_right_cancel h))

theorem payload_inj_lessonId {p k l1 l2 u e : String}
    (h : canonicalPayload p k l1 u e = canonicalPayload p k l2 u e) :
    l1 = l2 := by
  unfold canonicalPayload at h
  exact string_append_left_cancel (string_append_right_cancel
    (string_append_right_cancel (string_append_right_cancel
      (string_append_right_cancel h))))

theorem payload_inj_key {p k1 k2 l u e : String}
    (h : canonicalPayload p k1 l u e = canonicalPayload p k2 l u e) :
    k1 = k2 := by
  unfold canonicalPayload at h
  exact string_append_left_cancel (string_append_right_cancel
    (string_append_right_cancel (string_append_right_cancel
      (string_append_right_cancel (string_append_right_cancel
        (string_append_right_cancel h))))))

theorem payload_inj_provider {p1 p2 k l u e : String}
    (h : canonicalPayload p1 k l u e = canonicalPayload p2 k l u e) :
    p1 = p2 := by
  unfold canonicalPayload at h
  exact string_append_right_cancel (string_append_right_cancel
    (string_append_right_cancel (string_append_right_cancel
      (string_append_right_cancel (string_append_right_cancel
        (string_append_right_cancel (string_append_right_cancel h)))))))

/-- C5: verifying, with the same secret, the parameters embedded by
`buildSignedLessonContentUrl` returns `true` at every verification time whose
epoch second is strictly before the embedded expiry
`floor(signMs/1000) + ttl`. -/
theorem c5_signed_url_roundtrip (hmac : String → String → String)
    (secret : String) (signMs verifyMs : Nat) (input : SignedUrlInput)
    (h : verifyMs / 1000 < signMs / 1000 + input.expiresInSeconds) :
    verifySignedLessonContentUrl hmac secret verifyMs
      (buildSignedLessonContentUrl hmac secret signMs input).1 = true := by
  unfold buildSignedLessonContentUrl verifySignedLessonContentUrl
  dsimp only
  rw [decToNat_natToDec]
  dsimp only
  have hc : ¬(signMs / 1000 + input.expiresInSeconds ≤ verifyMs / 1000) := by omega
  rw [if_neg hc]
  simp

theorem c5_signed_url_roundtrip_witness :
    1050000 / 1000 < 1000000 / 1000 + 120 ∧
    verifySignedLessonContentUrl (fun s p => s ++ "|" ++ p) "secret" 1050000
      (buildSignedLessonContentUrl (fun s p => s ++ "|" ++ p) "secret" 1000000
        ⟨"u1", "l1", ⟨.gdrive, "path/to file.mp4", "f1", "video/mp4", 2048⟩, 120⟩).1
      = true :=
  ⟨by omega,
   c5_signed_url_roundtrip (fun s p => s ++ "|" ++ p) "secret" 1000000 1050000
     ⟨"u1", "l1", ⟨.gdrive, "path/to file.mp4", "f1", "video/mp4", 2048⟩, 120⟩
     (by decide)⟩

theorem verify_false_of_sig_ne (hmac : String → String → String)
    (secret : String) (nowMs : Nat) (q : SignedUrlParams)
    (h : q.sig ≠ hmac secret (canonicalPayload (providerString q.provider)
      q.key q.lessonId q.userId q.exp)) :
    verifySignedLessonContentUrl hmac secret nowMs q = false := by
  unfold verifySignedLessonContentUrl
  cases hde : decToNat q.exp with
  | none => rfl
  | some v =>
    dsimp only
    split
    · rfl
    · split
      · rfl
      · exact beq_eq_false_iff_ne.mpr (Ne.symm h)

/-- C6: the verifier returns a boolean on every input; it returns `false`
whenever `exp` fails the numeric gate, whenever the parsed expiry is not in
the future, and whenever `sig` differs from the HMAC of the canonical payload
(a signature of a different length falls under the length guard that models
the caught `timingSafeEqual` exception); and — assuming the HMAC is injective
for the fixed secret, the idealized collision-freeness of HMAC-SHA256 —
altering exactly one of provider, key, lessonId, userId, exp of a signed URL
makes verification return `false`. -/
theorem c6_verify_total_and_tamper_evident (hmac : String → String → String)
    (secret : String) (nowMs : Nat) (params : SignedUrlParams) :
    (verifySignedLessonContentUrl hmac secret nowMs params = true ∨
      verifySignedLessonContentUrl hmac secret nowMs params = false) ∧
    (decToNat params.exp = none →
      verifySignedLessonContentUrl hmac secret nowMs params = false) ∧
    (∀ v, decToNat params.exp = some v → v ≤ nowMs / 1000 →
      verifySignedLessonContentUrl hmac secret nowMs params = false) ∧
    (params.sig ≠ hmac secret (canonicalPayload (providerString params.provider)
        params.key params.lessonId params.userId params.exp) →
      verifySignedLessonContentUrl hmac secret nowMs params = false) ∧
    (∀ (signMs : Nat) (input : SignedUrlInput),
      Function.Injective (hmac secret) →
      params = (buildSignedLessonContentUrl hmac secret signMs input).1 →
      (∀ p', p' ≠ params.provider →
        verifySignedLessonContentUrl hmac secret nowMs
          { params with provider := p' } = false) ∧
      (∀ k', k' ≠ params.key →
        verifySignedLessonContentUrl hmac secret nowMs
          { params with key := k' } = false) ∧
      (∀ l', l' ≠ params.lessonId →
        verifySignedLessonContentUrl hmac secret nowMs
          { params with lessonId := l' } = false) ∧
      (∀ u', u' ≠ params.userId →
        verifySignedLessonContentUrl hmac secret nowMs
          { params with userId := u' } = false) ∧
      (∀ e', e' ≠ params.exp →
        verifySignedLessonContentUrl hmac secret nowMs
          { params with exp := e' } = false)) := by
  refine ⟨Bool.eq_false_or_eq_true _, ?_, ?_, ?_, ?_⟩
  · intro hnone
    unfold verifySignedLessonContentUrl
    rw [hnone]
  · intro v hv hle
    unfold verifySignedLessonContentUrl
    rw [hv]
    dsimp only
    rw [if_pos hle]
  · exact verify_false_of_sig_ne hmac secret nowMs params
  · intro signMs input hinj hbuilt
    subst hbuilt
    refine ⟨?_, ?_, ?_, ?_, ?_⟩
    · intro p' hp'
      apply verify_false_of_sig_ne
      intro he
      exact hp' (providerString_inj (payload_inj_provider (hinj he))).symm
    · intro k' hk'
      apply verify_false_of_sig_ne
      intro he
      exact hk' (payload_inj_key (hinj he)).symm
    · intro l' hl'
      apply verify_false_of_sig_ne
      intro he
      exact hl' (payload_inj_lessonId (hinj he)).symm
    · intro u' hu'
      apply verify_false_of_sig_ne
      intro he
      exact hu' (payload_inj_userId (hinj he)).symm
    · intro e' he'
      apply verify_false_of_sig_ne
      intro he
      exact he' (payload_inj_exp (hinj he)).symm

theorem c6_verify_total_and_tamper_evident_witness :
    decToNat "abc" = none ∧
    verifySignedLessonContentUrl hmacDemo "secret" 0
      ⟨.gdrive, "k", "l", "u", "abc", "s"⟩ = false ∧
    verifySignedLessonContentUrl hmacDemo "secret" 1050000
      { (buildSignedLessonContentUrl hmacDemo "secret" 1000000
          ⟨"u1", "l1", ⟨.gdrive, "k1", "f1", "video/mp4", 2048⟩, 120⟩).1 with
        userId := "mallory" } = false := by
  refine ⟨by decide, ?_, ?_⟩
  · exact (c6_verify_total_and_tamper_evident hmacDemo "secret" 0
      ⟨.gdrive, "k", "l", "u", "abc", "s"⟩).2.1 (by decide)
  · exact ((c6_verify_total_and_tamper_evident hmacDemo "secret" 1050000
      (buildSignedLessonContentUrl hmacDemo "secret" 1000000
        ⟨"u1", "l1", ⟨.gdrive, "k1", "f1", "video/mp4", 2048⟩, 120⟩).1).2.2.2.2
      1000000 ⟨"u1", "l1", ⟨.gdrive, "k1", "f1", "video/mp4", 2048⟩, 120⟩
      (fun _ _ h => string_append_left_cancel h) rfl).2.2.2.1
      "mallory" (by decide)

theorem alGet_delete_self {α : Type} {m : List (String × α)} {k : String}
    (hnd : (m.map Prod.fst).Nodup) : alGet (alDelete m k) k = none := by
  induction m with
  | nil => rfl
  | cons p rest ih =>
    obtain ⟨k', v⟩ := p
    simp only [List.map_cons, List.nodup_cons] at hnd
    by_cases h : k' = k
    · subst h
      have hd : alDelete ((k', v) :: rest) k' = rest := by simp [alDelete]
      rw [hd]
      cases hg : alGet rest k' with
      | none => rfl
      | some v' =>
        exact absurd (List.mem_map.mpr ⟨(k', v'), alGet_mem hg, rfl⟩) hnd.1
    · simp [alDelete, alGet, h, ih hnd.2]

/-- C7: an absent state fails with `invalid_state`; a recorded state older
than 10 minutes fails with `expired_state`; a recorded state within 10
minutes passes; and a state is single-use — after any callback that found the
state, a second callback presenting it fails with `invalid_state` regardless
of the first callback's outcome. -/
theorem c7_oauth_state_single_use :
    (∀ (states : List (String × Nat)) (state : String) (nowMs : Nat),
      alGet states state = none →
      consumeOAuthState states state nowMs = (.invalidState, states)) ∧
    (∀ (states : List (String × Nat)) (state : String) (nowMs issuedAt : Nat),
      alGet states state = some issuedAt →
      nowMs - issuedAt > 10 * 60 * 1000 →
      (consumeOAuthState states state nowMs).1 = .expiredState) ∧
    (∀ (states : List (String × Nat)) (state : String) (nowMs issuedAt : Nat),
      alGet states state = some issuedAt →
      nowMs - issuedAt ≤ 10 * 60 * 1000 →
      (consumeOAuthState states state nowMs).1 = .okState) ∧
    (∀ (states : List (String × Nat)) (state : String) (nowMs nowMs2 issuedAt : Nat),
      (states.map Prod.fst).Nodup →
      alGet states state = some issuedAt →
      (consumeOAuthState (consumeOAuthState states state nowMs).2
        state nowMs2).1 = .invalidState) := by
  refine ⟨?_, ?_, ?_, ?_⟩
  · intro states state nowMs h
    unfold consumeOAuthState
    rw [h]
  · intro states state nowMs issuedAt h hexp
    unfold consumeOAuthState
    rw [h]
    dsimp only
    rw [if_pos hexp]
  · intro states state nowMs issuedAt h hexp
    unfold consumeOAuthState
    rw [h]
    dsimp only
    rw [if_neg (by omega)]
  · intro states state nowMs nowMs2 issuedAt hnd h
    have h2 : (consumeOAuthState states state nowMs).2 = alDelete states state := by
      unfold consumeOAuthState
      rw [h]
      dsimp only
      split <;> rfl
    rw [h2]
    unfold consumeOAuthState
    rw [alGet_delete_self hnd]

theorem c7_oauth_state_single_use_witness :
    (consumeOAuthState (startOAuth [] "st1" 1000) "st1" 2000).1 = .okState ∧
    (consumeOAuthState (startOAuth [] "st1" 1000) "st1" 700000).1 = .expiredState ∧
    (consumeOAuthState
      (consumeOAuthState (startOAuth [] "st1" 1000) "st1" 2000).2
      "st1" 3000).1 = .invalidState := by
  refine ⟨?_, ?_, ?_⟩
  · exact c7_oauth_state_single_use.2.2.1 (startOAuth [] "st1" 1000) "st1"
      2000 1000 (by decide) (by decide)
  · exact c7_oauth_state_single_use.2.1 (startOAuth [] "st1" 1000) "st1"
      700000 1000 (by decide) (by decide)
  · exact c7_oauth_state_single_use.2.2.2 (startOAuth [] "st1" 1000) "st1"
      2000 3000 1000 (by decide) (by decide)

/-- C4 counterexample: an authorized principal of role Instructor posting a
module whose `courseId` references no course receives 404 `NOT_FOUND` (the
ownership path's `getCourse` throws first), not 400 `INVALID_RELATION` as the
claim states for every authorized principal. -/
theorem c4_counterexample :
    (⟨"inst1", .Instructor⟩ : Principal).role = .Instructor ∧
    alGet ServerState.empty.lms.courses "c1" = none ∧
    (postLmsModules ServerState.empty ⟨"inst1", .Instructor⟩
      ⟨"m1", "c1", "T", 1⟩).1 = .error ⟨404, "NOT_FOUND"⟩ ∧
    (postLmsModules ServerState.empty ⟨"inst1", .Instructor⟩
      ⟨"m1", "c1", "T", 1⟩).1 ≠ .error ⟨400, "INVALID_RELATION"⟩ := by
  refine ⟨rfl, rfl, by decide, by decide⟩

/-- C4 (amended): with a nonexistent `courseId`/`moduleId` and a valid body,
an Admin request fails with `INVALID_RELATION` (400) and leaves the state
unchanged, while an Instructor request fails with `NOT_FOUND` (404) because
the ownership resolution (`getCourse` / `getCourseIdForModule`) throws first;
creating an Enrollment with a nonexistent course fails with
`INVALID_RELATION` (400) for every authorized principal; and at the store
level `createModule`, `createLesson` and `enrollStudent` all fail with
`INVALID_RELATION` leaving the store unchanged. -/
theorem c4_invalid_relation_amended :
    (∀ (st : ServerState) (auth : Principal) (body : ModuleBody),
      auth.role = .Admin →
      body.id.length ≠ 0 → body.courseId.length ≠ 0 → body.title.length ≠ 0 →
      0 < body.position →
      alGet st.lms.courses body.courseId = none →
      postLmsModules st auth body = (.error ⟨400, "INVALID_RELATION"⟩, st)) ∧
    (∀ (st : ServerState) (auth : Principal) (body : ModuleBody),
      auth.role = .Instructor →
      body.id.length ≠ 0 → body.courseId.length ≠ 0 → body.title.length ≠ 0 →
      0 < body.position →
      alGet st.lms.courses body.courseId = none →
      postLmsModules st auth body = (.error ⟨404, "NOT_FOUND"⟩, st)) ∧
    (∀ (st : ServerState) (auth : Principal) (body : LessonBody),
      auth.role = .Admin →
      body.id.length ≠ 0 → body.moduleId.length ≠ 0 → body.title.length ≠ 0 →
      0 < body.position →
      alGet st.lms.modules body.moduleId = none →
      postLmsLessons st auth body = (.error ⟨400, "INVALID_RELATION"⟩, st)) ∧
    (∀ (st : ServerState) (auth : Principal) (body : LessonBody),
      auth.role = .Instructor →
      body.id.length ≠ 0 → body.moduleId.length ≠ 0 → body.title.length ≠ 0 →
      0 < body.position →
      alGet st.lms.modules body.moduleId = none →
      postLmsLessons st auth body = (.error ⟨404, "NOT_FOUND"⟩, st)) ∧
    (∀ (st : ServerState) (auth : Principal) (nowMs : Nat)
        (body : EnrollmentBody),
      (auth.role = .Admin ∨ auth.role = .Instructor ∨
        (auth.role = .Student ∧ auth.sub = body.userId)) →
      body.id.length ≠ 0 → body.courseId.length ≠ 0 → body.userId.length ≠ 0 →
      alGet st.lms.courses body.courseId = none →
      postLmsEnrollments st auth nowMs body =
        (.error ⟨400, "INVALID_RELATION"⟩, st)) ∧
    (∀ (st : LmsCoreStore) (input : LmsCoreStore.CreateModuleInput),
      alGet st.courses input.courseId = none →
      st.createModule input = (.error ⟨.INVALID_RELATION,
        "course does not exist: " ++ input.courseId⟩, st)) ∧
    (∀ (st : LmsCoreStore) (input : LmsCoreStore.CreateLessonInput),
      alGet st.modules input.moduleId = none →
      st.createLesson input = (.error ⟨.INVALID_RELATION,
        "module does not exist: " ++ input.moduleId⟩, st)) ∧
    (∀ (st : LmsCoreStore) (now : Nat) (input : LmsCoreStore.EnrollStudentInput),
      alGet st.courses input.courseId = none →
      st.enrollStudent now input = (.error ⟨.INVALID_RELATION,
        "course does not exist: " ++ input.courseId⟩, st)) := by
  refine ⟨?_, ?_, ?_, ?_, ?_, ?_, ?_, ?_⟩
  · intro st auth body hrole hid hcid htitle hpos hcourse
    unfold postLmsModules
    rw [if_neg (not_not_intro (Or.inl hrole))]
    rw [if_neg (by push_neg; exact ⟨hid, hcid, htitle, by omega⟩)]
    have hg : instructorOwnershipGate st auth body.courseId = .ok false := by
      unfold instructorOwnershipGate
      rw [if_neg (by rw [hrole]; intro h; cases h)]
    rw [hg]
    have hcm : st.lms.createModule
        ⟨body.id, body.courseId, body.title, body.position⟩ =
        (.error ⟨.INVALID_RELATION,
          "course does not exist: " ++ body.courseId⟩, st.lms) := by
      unfold LmsCoreStore.createModule
      rw [hcourse]
    rw [hcm]
    rfl
  · intro st auth body hrole hid hcid htitle hpos hcourse
    unfold postLmsModules
    rw [if_neg (not_not_intro (Or.inr hrole))]
    rw [if_neg (by push_neg; exact ⟨hid, hcid, htitle, by omega⟩)]
    have hg : instructorOwnershipGate st auth body.courseId =
        .error ⟨.NOT_FOUND, "course does not exist: " ++ body.courseId⟩ := by
      unfold instructorOwnershipGate
      rw [if_pos hrole]
      unfold LmsCoreStore.getCourse
      rw [hcourse]
    rw [hg]
    rfl
  · intro st auth body hrole hid hmid htitle hpos hmod
    unfold postLmsLessons
    rw [if_neg (not_not_intro (Or.inl hrole))]
    rw [if_neg (by push_neg; exact ⟨hid, hmid, htitle, by omega⟩)]
    have hg : lessonOwnershipGate st auth body.moduleId = .ok false := by
      unfold lessonOwnershipGate
      rw [if_neg (by rw [hrole]; intro h; cases h)]
    rw [hg]
    have hcl : st.lms.createLesson
        ⟨body.id, body.moduleId, body.title, body.position⟩ =
        (.error ⟨.INVALID_RELATION,
          "module does not exist: " ++ body.moduleId⟩, st.lms) := by
      unfold LmsCoreStore.createLesson
      rw [hmod]
    rw [hcl]
    rfl
  · intro st auth body hrole hid hmid htitle hpos hmod
    unfold postLmsLessons
    rw [if_neg (not_not_intro (Or.inr hrole))]
    rw [if_neg (by push_neg; exact ⟨hid, hmid, htitle, by omega⟩)]
    have hg : lessonOwnershipGate st auth body.moduleId =
        .error ⟨.NOT_FOUND, "module does not exist: " ++ body.moduleId⟩ := by
      unfold lessonOwnershipGate
      rw [if_pos hrole]
      unfold LmsCoreStore.getCourseIdForModule
      rw [hmod]
    rw [hg]
    rfl
  · intro st auth nowMs body hrole hid hcid huid hcourse
    unfold postLmsEnrollments
    rw [if_neg (not_not_intro (by tauto))]
    rw [if_neg (by push_neg; exact ⟨hid, hcid, huid⟩)]
    rw [if_neg (by
      rintro ⟨hs, hne⟩
      rcases hrole with h | h | h
      · rw [h] at hs; cases hs
      · rw [h] at hs; cases hs
      · exact hne h.2)]
    have he : st.lms.enrollStudent nowMs ⟨body.id, body.courseId, body.userId⟩ =
        (.error ⟨.INVALID_RELATION,
          "course does not exist: " ++ body.courseId⟩, st.lms) := by
      unfold LmsCoreStore.enrollStudent
      rw [show alHas st.lms.courses body.courseId = false from by
        simp [alHas, hcourse]]
      rfl
    rw [he]
    rfl
  · intro st input hcourse
    unfold LmsCoreStore.createModule
    rw [hcourse]
  · intro st input hmod
    unfold LmsCoreStore.createLesson
    rw [hmod]
  · intro st now input hcourse
    unfold LmsCoreStore.enrollStudent
    rw [show alHas st.courses input.courseId = false from by simp [alHas, hcourse]]
    rfl

theorem c4_invalid_relation_amended_witness :
    postLmsModules ServerState.empty ⟨"admin1", .Admin⟩ ⟨"m1", "c1", "T", 1⟩ =
      (.error ⟨400, "INVALID_RELATION"⟩, ServerState.empty) ∧
    postLmsModules ServerState.empty ⟨"inst1", .Instructor⟩ ⟨"m1", "c1", "T", 1⟩ =
      (.error ⟨404, "NOT_FOUND"⟩, ServerState.empty) :=
  ⟨c4_invalid_relation_amended.1 ServerState.empty ⟨"admin1", .Admin⟩
      ⟨"m1", "c1", "T", 1⟩ rfl (by decide) (by decide) (by decide)
      (by decide) rfl,
   c4_invalid_relation_amended.2.1 ServerState.empty ⟨"inst1", .Instructor⟩
      ⟨"m1", "c1", "T", 1⟩ rfl (by decide) (by decide) (by decide)
      (by decide) rfl⟩

theorem getOrCreateSubscription_lms (st2 : ServerState) (uid : String)
    (nowMs : Nat) : (getOrCreateSubscription st2 uid nowMs).2.lms = st2.lms := by
  unfold getOrCreateSubscription
  cases alGet st2.subscriptionsByUserId uid <;> rfl

/-- C9: plan limits are soft. A `POST /lms/courses` by an authorized
principal with a valid body and a fresh course id succeeds with 201 for every
subscription state — no plan or usage condition appears; the response's
soft-limit annotation is computed from the live post-insert usage snapshot,
with each `exceededBy` equal to `max(usage - limit, 0)`; on the free plan
(limit 2) a live count of 3 created courses yields
`createdCoursesExceededBy = 1` (and `softLimitExceeded`), and after an Admin
plan change to `pro` (limit 20) it is 0, the plan change touching nothing but
the subscription record. -/
theorem c9_soft_limits :
    (∀ (st : ServerState) (auth : Principal) (nowMs : Nat) (body : CourseBody),
      (auth.role = .Admin ∨ auth.role = .Instructor) →
      body.id.length ≠ 0 → body.title.length ≠ 0 →
      alHas st.lms.courses body.id = false →
      postLmsCourses st auth nowMs body =
        (.ok (201, ⟨body.id, body.title, auth.sub, nowMs⟩,
          (withSoftLimitMeta { st with lms :=
            (st.lms.createCourse nowMs ⟨body.id, body.title, auth.sub⟩).2 }
            auth.sub nowMs).1),
         (withSoftLimitMeta { st with lms :=
            (st.lms.createCourse nowMs ⟨body.id, body.title, auth.sub⟩).2 }
            auth.sub nowMs).2)) ∧
    (∀ (st2 : ServerState) (uid : String) (nowMs : Nat),
      (withSoftLimitMeta st2 uid nowMs).1.softLimit =
        ⟨jsMaxSubZero (st2.lms.getUserUsageSnapshot uid).createdCourses
            (PLAN_LIMITS (getOrCreateSubscription st2 uid nowMs).1.plan).maxCreatedCourses,
         jsMaxSubZero (st2.lms.getUserUsageSnapshot uid).activeEnrollments
            (PLAN_LIMITS (getOrCreateSubscription st2 uid nowMs).1.plan).maxActiveEnrollments,
         jsMaxSubZero (st2.lms.getUserUsageSnapshot uid).ownedStorageBytes
            (PLAN_LIMITS (getOrCreateSubscription st2 uid nowMs).1.plan).maxOwnedStorageBytes⟩) ∧
    (∀ a b : Nat, (jsMaxSubZero a b : Int) = max ((a : Int) - (b : Int)) 0) ∧
    (PLAN_LIMITS .free).maxCreatedCourses = 2 ∧
    (PLAN_LIMITS .pro).maxCreatedCourses = 20 ∧
    (∀ (st2 : ServerState) (uid : String) (nowMs : Nat),
      (getOrCreateSubscription st2 uid nowMs).1.plan = .free →
      (st2.lms.getUserUsageSnapshot uid).createdCourses = 3 →
      (withSoftLimitMeta st2 uid nowMs).1.softLimit.createdCoursesExceededBy = 1 ∧
      (withSoftLimitMeta st2 uid nowMs).1.softLimitExceeded = true) ∧
    (∀ (st : ServerState) (auth : Principal) (nowMs : Nat) (body : PlanBody),
      auth.role = .Admin → body.userId.length ≠ 0 →
      alHas st.usersById body.userId = true →
      postSubscriptionPlan st auth nowMs body =
        (.ok ⟨body.userId, body.plan, nowMs⟩,
          { st with subscriptionsByUserId :=
            (alSet st.subscriptionsByUserId body.userId
              ⟨body.userId, body.plan, nowMs⟩) }) ∧
      (postSubscriptionPlan st auth nowMs body).2.lms = st.lms ∧
      (postSubscriptionPlan st auth nowMs body).2.usersById = st.usersById ∧
      (postSubscriptionPlan st auth nowMs body).2.refreshSessions =
        st.refreshSessions ∧
      (postSubscriptionPlan st auth nowMs body).2.oauthStates = st.oauthStates ∧
      (body.plan = .pro → ∀ nowMs2,
        (st.lms.getUserUsageSnapshot body.userId).createdCourses ≤ 20 →
        (withSoftLimitMeta (postSubscriptionPlan st auth nowMs body).2
          body.userId nowMs2).1.softLimit.createdCoursesExceededBy = 0)) := by
  refine ⟨?_, ?_, ?_, rfl, rfl, ?_, ?_⟩
  · intro st auth nowMs body hrole hid htitle hfresh
    have hr1 : (st.lms.createCourse nowMs ⟨body.id, body.title, auth.sub⟩).1 =
        .ok ⟨body.id, body.title, auth.sub, nowMs⟩ := by
      unfold LmsCoreStore.createCourse
      rw [if_neg (by rw [hfresh]; exact Bool.false_ne_true)]
    unfold postLmsCourses
    rw [if_neg (not_not_intro hrole)]
    rw [if_neg (by push_neg; exact ⟨hid, htitle⟩)]
    dsimp only
    rw [hr1]
  · intro st2 uid nowMs
    unfold withSoftLimitMeta getSubscriptionStatus
    dsimp only
    rw [getOrCreateSubscription_lms]
  · intro a b
    unfold jsMaxSubZero
    omega
  · intro st2 uid nowMs hplan husage
    unfold withSoftLimitMeta getSubscriptionStatus
    dsimp only
    rw [getOrCreateSubscription_lms, hplan, husage]
    exact ⟨rfl, rfl⟩
  · intro st auth nowMs body hrole huid huser
    have hpost : postSubscriptionPlan st auth nowMs body =
        (.ok ⟨body.userId, body.plan, nowMs⟩,
          { st with subscriptionsByUserId :=
            (alSet st.subscriptionsByUserId body.userId
              ⟨body.userId, body.plan, nowMs⟩) }) := by
      unfold postSubscriptionPlan
      rw [if_neg (not_not_intro hrole)]
      rw [if_neg huid]
      rw [if_neg (not_not_intro huser)]
    refine ⟨hpost, by rw [hpost], by rw [hpost], by rw [hpost], by rw [hpost], ?_⟩
    intro hpro nowMs2 husage
    rw [hpost]
    unfold withSoftLimitMeta getSubscriptionStatus getOrCreateSubscription
    dsimp only
    rw [alGet_set_self]
    dsimp only
    rw [hpro]
    simp only [PLAN_LIMITS]
    unfold jsMaxSubZero
    omega

theorem c9_soft_limits_witness :
    (withSoftLimitMeta c9After "u1" 5).1.softLimit.createdCoursesExceededBy = 1 ∧
    (withSoftLimitMeta c9After "u1" 5).1.softLimitExceeded = true ∧
    (withSoftLimitMeta (postSubscriptionPlan c9After ⟨"adm", .Admin⟩ 6
        ⟨"u1", .pro⟩).2 "u1" 7).1.softLimit.createdCoursesExceededBy = 0 := by
  have h1 := c9_soft_limits.2.2.2.2.2.1 c9After "u1" 5 (by decide) (by decide)
  have h2 := (c9_soft_limits.2.2.2.2.2.2 c9After ⟨"adm", .Admin⟩ 6
    ⟨"u1", .pro⟩ rfl (by decide) (by decide)).2.2.2.2.2 rfl 7 (by decide)
  exact ⟨h1.1, h1.2, h2⟩

/-! ## C1: anti-replay of refresh sessions -/

theorem getOrCreateSubscription_sessions (st2 : ServerState) (uid : String)
    (nowMs : Nat) :
    (getOrCreateSubscription st2 uid nowMs).2.refreshSessions =
      st2.refreshSessions := by
  unfold getOrCreateSubscription
  cases alGet st2.subscriptionsByUserId uid <;> rfl

theorem sessionRevoked_toAuthResponseState {env : EnvCfg} {st : ServerState}
    {sid : String} (h : sessionRevoked st sid) (nowMs : Nat) (sid' : String)
    (user : User) (hf : alHas st.refreshSessions sid' = false) :
    sessionRevoked (toAuthResponseState env st nowMs sid' user).2 sid := by
  obtain ⟨s, hs, hrev⟩ := h
  have hne : sid' ≠ sid := by
    intro he
    rw [he, alHas_of_alGet hs] at hf
    cases hf
  refine ⟨s, ?_, hrev⟩
  unfold toAuthResponseState issueRefreshToken
  dsimp only
  rw [show ∀ m, alGet (alSet (getOrCreateSubscription st user.id nowMs).2.refreshSessions sid' m) sid
      = alGet st.refreshSessions sid from fun m => by
    rw [alGet_set_ne _ _ _ _ hne, getOrCreateSubscription_sessions]]
  exact hs

theorem sessionRevoked_postAuthRefresh {env : EnvCfg} {st : ServerState}
    {sid : String} (h : sessionRevoked st sid) (nowMs : Nat) (sid' : String)
    (token : RefreshClaims) (hf : alHas st.refreshSessions sid' = false) :
    sessionRevoked (postAuthRefresh env st nowMs sid' token).2 sid := by
  obtain ⟨s, hs, hrev⟩ := h
  unfold postAuthRefresh
  split
  · exact ⟨s, hs, hrev⟩
  split
  · exact ⟨s, hs, hrev⟩
  split
  · exact ⟨s, hs, hrev⟩
  rename_i session hsession
  split
  · exact ⟨s, hs, hrev⟩
  rename_i hnotrev
  split
  · exact ⟨s, hs, hrev⟩
  split
  · exact ⟨s, hs, hrev⟩
  split
  · exact ⟨s, hs, hrev⟩
  rename_i user huser
  split
  · exact ⟨s, hs, hrev⟩
  · dsimp only
    have hne1 : token.sid ≠ sid := by
      intro he
      rw [he, hs] at hsession
      injection hsession with hse
      rw [hse] at hrev
      exact hnotrev (Option.ne_none_iff_isSome.mp hrev)
    have hst1 : sessionRevoked
        { st with refreshSessions := (alSet st.refreshSessions token.sid
          { session with revokedAt := some nowMs }) } sid :=
      ⟨s, (alGet_set_ne _ _ _ _ hne1).trans hs, hrev⟩
    have hf1 : alHas (alSet st.refreshSessions token.sid
        { session with revokedAt := some nowMs }) sid' = false := by
      rw [alHas_set]
      have : token.sid ≠ sid' := by
        intro he
        rw [← he, alHas_of_alGet hsession] at hf
        cases hf
      simp [this, hf]
    exact sessionRevoked_toAuthResponseState hst1 nowMs sid' user hf1

theorem sessionRevoked_postAuthLogout {st : ServerState} {sid : String}
    (h : sessionRevoked st sid) (nowMs : Nat) (token : RefreshClaims) :
    sessionRevoked (postAuthLogout st nowMs token).2 sid := by
  obtain ⟨s, hs, hrev⟩ := h
  unfold postAuthLogout
  split
  · exact ⟨s, hs, hrev⟩
  split
  · exact ⟨s, hs, hrev⟩
  split
  · exact ⟨s, hs, hrev⟩
  rename_i session hsession
  split
  · exact ⟨s, hs, hrev⟩
  · by_cases he : token.sid = sid
    · subst he
      exact ⟨{ session with revokedAt := some nowMs },
        alGet_set_self _ _ _, by simp⟩
    · exact ⟨s, (alGet_set_ne _ _ _ _ he).trans hs, hrev⟩

theorem sessionRevoked_applyAuthEvent {env : EnvCfg} {st : ServerState}
    {sid : String} {e : AuthEvent} (h : sessionRevoked st sid)
    (hf : freshFor st e) : sessionRevoked (applyAuthEvent env st e) sid := by
  cases e with
  | loginEv user nowMs sid' =>
    exact sessionRevoked_toAuthResponseState h nowMs sid' user hf
  | refreshEv token nowMs sid' =>
    exact sessionRevoked_postAuthRefresh h nowMs sid' token hf
  | logoutEv token nowMs =>
    exact sessionRevoked_postAuthLogout h nowMs token

theorem sessionRevoked_runAuthEvents {env : EnvCfg} {st : ServerState}
    {sid : String} {es : List AuthEvent} (h : sessionRevoked st sid)
    (hf : FreshTrace env st es) :
    sessionRevoked (runAuthEvents env st es) sid := by
  induction es generalizing st with
  | nil => exact h
  | cons e rest ih =>
    exact ih (sessionRevoked_applyAuthEvent h hf.1) hf.2

theorem postAuthRefresh_error_of_revoked {env : EnvCfg} {st : ServerState}
    {nowMs : Nat} {sid' : String} {token : RefreshClaims}
    (h : sessionRevoked st token.sid) :
    (∃ e, (postAuthRefresh env st nowMs sid' token).1 = .error e) ∧
    (nowMs / 1000 < token.exp → token.typ = .refresh →
      (postAuthRefresh env st nowMs sid' token).1 =
        .error .refreshSessionInvalid) := by
  obtain ⟨s, hs, hrev⟩ := h
  unfold postAuthRefresh
  split
  · rename_i hexp
    exact ⟨⟨_, rfl⟩, fun hlt _ => absurd hexp (by omega)⟩
  split
  · rename_i hty
    exact ⟨⟨_, rfl⟩, fun _ hre => absurd hre hty⟩
  rw [hs]
  dsimp only
  rw [if_pos (Option.ne_none_iff_isSome.mp hrev)]
  exact ⟨⟨_, rfl⟩, fun _ _ => rfl⟩

theorem postAuthRefresh_ok_revokes {env : EnvCfg} {st : ServerState}
    {nowMs : Nat} {sid' : String} {token r : RefreshClaims} {st' : ServerState}
    (h : postAuthRefresh env st nowMs sid' token = (.ok r, st'))
    (hf : alHas st.refreshSessions sid' = false) :
    sessionRevoked st' token.sid ∧ nowMs / 1000 < token.exp ∧
      token.typ = .refresh := by
  unfold postAuthRefresh at h
  split at h
  · injection h with h1 h2
    cases h1
  rename_i hexp
  split at h
  · injection h with h1 h2
    cases h1
  rename_i hty
  split at h
  · injection h with h1 h2
    cases h1
  rename_i session hsession
  split at h
  · injection h with h1 h2
    cases h1
  split at h
  · injection h with h1 h2
    cases h1
  split at h
  · injection h with h1 h2
    cases h1
  split at h
  · injection h with h1 h2
    cases h1
  rename_i user huser
  split at h
  · injection h with h1 h2
    cases h1
  · injection h with h1 h2
    refine ⟨?_, by omega, not_not.mp hty⟩
    rw [← h2]
    have hst1 : sessionRevoked
        { st with refreshSessions := (alSet st.refreshSessions token.sid
          { session with revokedAt := some nowMs }) } token.sid :=
      ⟨{ session with revokedAt := some nowMs }, alGet_set_self _ _ _, by simp⟩
    have hf1 : alHas (alSet st.refreshSessions token.sid
        { session with revokedAt := some nowMs }) sid' = false := by
      rw [alHas_set]
      have hne : token.sid ≠ sid' := by
        intro he
        rw [← he, alHas_of_alGet hsession] at hf
        cases hf
      simp [hne, hf]
    exact sessionRevoked_toAuthResponseState hst1 nowMs sid' user hf1

theorem postAuthLogout_blocks_refresh {env : EnvCfg} {st : ServerState}
    {nowMs nowMs2 : Nat} {sid' : String} {token : RefreshClaims}
    (hmono : nowMs ≤ nowMs2) :
    ∃ e, (postAuthRefresh env (postAuthLogout st nowMs token).2
      nowMs2 sid' token).1 = .error e := by
  unfold postAuthLogout
  split
  · rename_i hexp
    refine ⟨.refreshTokenExpired, ?_⟩
    dsimp only
    unfold postAuthRefresh
    rw [if_pos (show token.exp ≤ nowMs2 / 1000 by
      have h2 : nowMs / 1000 ≤ nowMs2 / 1000 := Nat.div_le_div_right hmono
      omega)]
  split
  · rename_i hty
    dsimp only
    unfold postAuthRefresh
    by_cases hexp2 : token.exp ≤ nowMs2 / 1000
    · rw [if_pos hexp2]
      exact ⟨_, rfl⟩
    · rw [if_neg hexp2, if_pos hty]
      exact ⟨_, rfl⟩
  split
  · rename_i hsession
    dsimp only
    unfold postAuthRefresh
    by_cases hexp2 : token.exp ≤ nowMs2 / 1000
    · rw [if_pos hexp2]
      exact ⟨_, rfl⟩
    · rw [if_neg hexp2]
      by_cases hty2 : token.typ ≠ .refresh
      · rw [if_pos hty2]
        exact ⟨_, rfl⟩
      · rw [if_neg hty2, hsession]
        exact ⟨_, rfl⟩
  rename_i session hsession
  split
  · rename_i hrevoked
    dsimp only
    exact (postAuthRefresh_error_of_revoked
      ⟨session, hsession, Option.isSome_iff_ne_none.mp hrevoked⟩).1
  · dsimp only
    exact (postAuthRefresh_error_of_revoked
      ⟨{ session with revokedAt := some nowMs },
        alGet_set_self _ _ _, by simp⟩).1

/-- C1: once a refresh session is revoked it stays revoked and the tokens
bound to it are dead. A successful rotation revokes the presented token's
session, so a second presentation of the same token never succeeds, and when
the token itself has not yet expired the failure is exactly 401
`refresh_session_invalid`; a token used for logout can never be rotated
afterwards; and once `revokedAt` is set, it survives every later
session-affecting request (logins, rotations, logouts, with fresh random
session ids) and every later `POST /auth/refresh` presenting a token bound to
that session fails. -/
theorem c1_refresh_token_single_use (env : EnvCfg) :
    (∀ (st : ServerState) (nowMs nowMs2 : Nat) (sid sid2 : String)
        (token r : RefreshClaims) (st' : ServerState),
      postAuthRefresh env st nowMs sid token = (.ok r, st') →
      alHas st.refreshSessions sid = false →
      (∃ e, (postAuthRefresh env st' nowMs2 sid2 token).1 = .error e) ∧
      (nowMs2 / 1000 < token.exp →
        (postAuthRefresh env st' nowMs2 sid2 token).1 =
          .error .refreshSessionInvalid)) ∧
    (∀ (st : ServerState) (nowMs nowMs2 : Nat) (sid2 : String)
        (token : RefreshClaims), nowMs ≤ nowMs2 →
      ∃ e, (postAuthRefresh env (postAuthLogout st nowMs token).2
        nowMs2 sid2 token).1 = .error e) ∧
    (∀ (st : ServerState) (es : List AuthEvent) (token : RefreshClaims)
        (nowMs : Nat) (sid2 : String),
      sessionRevoked st token.sid → FreshTrace env st es →
      sessionRevoked (runAuthEvents env st es) token.sid ∧
      (∃ e, (postAuthRefresh env (runAuthEvents env st es)
        nowMs sid2 token).1 = .error e) ∧
      (nowMs / 1000 < token.exp → token.typ = .refresh →
        (postAuthRefresh env (runAuthEvents env st es) nowMs sid2 token).1 =
          .error .refreshSessionInvalid)) := by
  refine ⟨?_, ?_, ?_⟩
  · intro st nowMs nowMs2 sid sid2 token r st' h hf
    obtain ⟨hrev, hexp, hty⟩ := postAuthRefresh_ok_revokes h hf
    have h9 := @postAuthRefresh_error_of_revoked env st' nowMs2 sid2 token hrev
    exact ⟨h9.1, fun hlt => h9.2 hlt hty⟩
  · intro st nowMs nowMs2 sid2 token hmono
    exact postAuthLogout_blocks_refresh hmono
  · intro st es token nowMs sid2 hrev hf
    have hrun : sessionRevoked (runAuthEvents env st es) token.sid :=
      sessionRevoked_runAuthEvents hrev hf
    have h9 := @postAuthRefresh_error_of_revoked env (runAuthEvents env st es)
      nowMs sid2 token hrun
    exact ⟨hrun, h9.1, h9.2⟩

theorem c1_refresh_token_single_use_witness :
    (∃ e, (postAuthRefresh demoEnv
      (postAuthRefresh demoEnv demoLogin.2 2000 "sid2" demoLogin.1).2
      3000 "sid3" demoLogin.1).1 = .error e) ∧
    (∃ e, (postAuthRefresh demoEnv
      (postAuthLogout demoLogin.2 2000 demoLogin.1).2
      3000 "sid3" demoLogin.1).1 = .error e) := by
  constructor
  · exact ((c1_refresh_token_single_use demoEnv).1 demoLogin.2 2000 3000
      "sid2" "sid3" demoLogin.1 _ _ rfl (by decide)).1
  · exact (c1_refresh_token_single_use demoEnv).2.1 demoLogin.2 2000 3000
      "sid3" demoLogin.1 (by omega)

end NavCloud
